import Mathlib

/-!
Shallow embedding of the route compiler of `vite-plugin-react-app-router`:
the directory scanner / route-tree parser (`src/commons/routeParser.ts`) and
the code generator (`src/commons/codeGenerator.ts`), together with theorems
about the embedded functions.

Strings are manipulated through their character lists so that every
definition evaluates inside the kernel.  JavaScript's `localeCompare` is
modelled as code-point lexicographic comparison, and `String.toUpperCase`
on a single character as `Char.toUpper`; the identifiers and directory
names involved are ASCII, where both models agree with JavaScript.
-/

/-- JavaScript `s.startsWith(pre)`. -/
def strStartsWith (s pre : String) : Bool :=
  pre.toList.isPrefixOf s.toList

/-- JavaScript `s.endsWith(suf)`. -/
def strEndsWith (s suf : String) : Bool :=
  suf.toList.isSuffixOf s.toList

/-- Drop `n` characters from the end of a character list. -/
def dropRightChars (l : List Char) (n : Nat) : List Char :=
  l.take (l.length - n)

/-- JavaScript `s.slice(from, -dropEnd)`: drop `from` characters at the
front and `dropEnd` characters at the end. -/
def strSlice (s : String) (from_ dropEnd : Nat) : String :=
  String.mk (dropRightChars (s.toList.drop from_) dropEnd)

/-- Drop `n` characters from the front (JavaScript `s.slice(n)`). -/
def strDrop (s : String) (n : Nat) : String :=
  String.mk (s.toList.drop n)

/-- Code-point comparison of character lists, returning -1 / 0 / 1 like
JavaScript `localeCompare` (modelled as code-point lexicographic order). -/
def charListCompare : List Char → List Char → Int
  | [], [] => 0
  | [], _ :: _ => -1
  | _ :: _, [] => 1
  | a :: as, b :: bs =>
      if a.toNat < b.toNat then -1
      else if b.toNat < a.toNat then 1
      else charListCompare as bs

/-- `a.localeCompare(b)` of the source, on strings. -/
def strCompare (a b : String) : Int :=
  charListCompare a.toList b.toList

/-! ## Segment classification (`parseSegment`) -/

/-- Result record of `parseSegment`.  `paramName` is optional because the
source omits the field for groups and static segments. -/
structure SegmentInfo where
  isDynamic : Bool
  isCatchAll : Bool
  isOptionalCatchAll : Bool
  isGroup : Bool
  paramName : Option String
  routeSegment : String
deriving DecidableEq

/-- `parseSegment` of `routeParser.ts`: classifies one directory name.
The four guards are checked in the source's order; anything else is a
static segment. -/
def parseSegment (segment : String) : SegmentInfo :=
  if strStartsWith segment "(" && strEndsWith segment ")" then
    { isDynamic := false, isCatchAll := false, isOptionalCatchAll := false,
      isGroup := true, paramName := none, routeSegment := "" }
  else if strStartsWith segment "[[..." && strEndsWith segment "]]" then
    let paramName := strSlice segment 5 2
    { isDynamic := true, isCatchAll := false, isOptionalCatchAll := true,
      isGroup := false, paramName := some paramName, routeSegment := "*" }
  else if strStartsWith segment "[..." && strEndsWith segment "]" then
    let paramName := strSlice segment 4 1
    { isDynamic := true, isCatchAll := true, isOptionalCatchAll := false,
      isGroup := false, paramName := some paramName, routeSegment := "*" }
  else if strStartsWith segment "[" && strEndsWith segment "]" then
    let paramName := strSlice segment 1 1
    { isDynamic := true, isCatchAll := false, isOptionalCatchAll := false,
      isGroup := false, paramName := some paramName,
      routeSegment := ":" ++ paramName }
  else
    { isDynamic := false, isCatchAll := false, isOptionalCatchAll := false,
      isGroup := false, paramName := none, routeSegment := segment }

/-! ## The route tree (`RouteNode`) -/

/-- The non-recursive fields of a `RouteNode` of `types.ts`. -/
structure RouteInfo where
  segment : String
  path : String
  pagePath : Option String
  layoutPath : Option String
  loadingPath : Option String
  errorPath : Option String
  notFoundPath : Option String
  isDynamic : Bool
  isCatchAll : Bool
  isOptionalCatchAll : Bool
  paramName : Option String
  isGroup : Bool
deriving DecidableEq

mutual
/-- `RouteNode`: the info record plus the ordered child list
(`children: RouteNode[]` in the source, written as a mutual list type so
that recursion over the tree is structural). -/
inductive RouteNode where
  | mk (info : RouteInfo) (children : RouteNodeList)
/-- An ordered list of `RouteNode` (the `RouteNode[]` of the source). -/
inductive RouteNodeList where
  | nil
  | cons (head : RouteNode) (tail : RouteNodeList)
end

def RouteNode.info : RouteNode → RouteInfo
  | .mk i _ => i

def RouteNode.children : RouteNode → RouteNodeList
  | .mk _ c => c

def RouteNode.segment (n : RouteNode) : String := n.info.segment

def RouteNode.path (n : RouteNode) : String := n.info.path

def RouteNode.isDynamic (n : RouteNode) : Bool := n.info.isDynamic

def RouteNode.isCatchAll (n : RouteNode) : Bool := n.info.isCatchAll

def RouteNode.isOptionalCatchAll (n : RouteNode) : Bool := n.info.isOptionalCatchAll

def RouteNode.isGroup (n : RouteNode) : Bool := n.info.isGroup

/-! ## The filesystem model -/

mutual
/-- A directory on disk: the plain files it contains (by name, extension
included) and its subdirectories.  Passing the directory as a value models
the filesystem that `fs.existsSync` / `fs.readdirSync` read; a path for
which `fs.existsSync` is false is modelled as `none` at the call site. -/
inductive DirNode where
  | mk (files : List String) (dirs : DirEntries)
/-- Named subdirectory entries, in `readdirSync` order. -/
inductive DirEntries where
  | nil
  | cons (name : String) (dir : DirNode) (tail : DirEntries)
end

def DirNode.files : DirNode → List String
  | .mk fs _ => fs

def DirNode.dirs : DirNode → DirEntries
  | .mk _ ds => ds

/-- `findFileWithExtension` of `routeParser.ts`: try each extension in
priority order; the first `fileName + ext` present in the directory wins,
and the returned path is `path.join(basePath, fileName + ext)`. -/
def findFileWithExtension (d : DirNode) (basePath fileName : String) :
    List String → Option String
  | [] => none
  | ext :: rest =>
      if d.files.contains (fileName ++ ext) then
        some (basePath ++ "/" ++ fileName ++ ext)
      else findFileWithExtension d basePath fileName rest

/-- The default extension list of `routeParser.ts`. -/
def DEFAULT_EXTENSIONS : List String := [".tsx", ".ts", ".jsx", ".js"]

/-- The fixed ignore-list of `scanAppDirectory`. -/
def ignoredDirNames : List String :=
  ["node_modules", ".git", "components", "lib", "utils", "hooks", "styles"]

/-- A directory entry is skipped when its name starts with `_` or is on the
ignore-list. -/
def skipDirectory (name : String) : Bool :=
  strStartsWith name "_" || ignoredDirNames.contains name

/-- The sort comparator of `scanAppDirectory` (`routeParser.ts`, the
`nodes.sort` callback): catch-alls forced last, dynamic after static,
remaining ties by `localeCompare` on the raw segment name. -/
def routeNodeCompare (a b : RouteNode) : Int :=
  if a.isCatchAll || a.isOptionalCatchAll then 1
  else if b.isCatchAll || b.isOptionalCatchAll then -1
  else if a.isDynamic && !b.isDynamic then 1
  else if !a.isDynamic && b.isDynamic then -1
  else strCompare a.segment b.segment

/-- Stable insertion of a node into an already sorted list, placing `x`
before the first element it does not compare greater than. -/
def insertNode (x : RouteNode) : RouteNodeList → RouteNodeList
  | .nil => .cons x .nil
  | .cons y tl =>
      if routeNodeCompare x y > 0 then .cons y (insertNode x tl)
      else .cons x (.cons y tl)

/-- `nodes.sort(...)` modelled as a stable insertion sort
(`Array.prototype.sort` is stable). -/
def sortRouteNodes : RouteNodeList → RouteNodeList
  | .nil => .nil
  | .cons x tl => insertNode x (sortRouteNodes tl)

mutual
/-- Body of `scanAppDirectory` for an existing directory: build one node
per retained subdirectory, then sort the level. -/
def scanDirNode : DirNode → String → List String → String → RouteNodeList
  | .mk _ ds, dirPath, extensions, parentPath =>
      sortRouteNodes (scanEntries ds dirPath extensions parentPath)
/-- The `for (const entry of entries)` loop of `scanAppDirectory`, over the
subdirectory entries of the current directory. -/
def scanEntries : DirEntries → String → List String → String → RouteNodeList
  | .nil, _, _, _ => .nil
  | .cons name child tail, dirPath, extensions, parentPath =>
      if skipDirectory name then scanEntries tail dirPath extensions parentPath
      else
        let segmentInfo := parseSegment name
        let fullDirPath := dirPath ++ "/" ++ name
        let routePath :=
          if segmentInfo.isGroup then parentPath
          else parentPath ++
            (if segmentInfo.routeSegment == "" then ""
             else "/" ++ segmentInfo.routeSegment)
        let node := RouteNode.mk
          { segment := name,
            path := if routePath == "" then "/" else routePath,
            pagePath := findFileWithExtension child fullDirPath "page" extensions,
            layoutPath := findFileWithExtension child fullDirPath "layout" extensions,
            loadingPath := findFileWithExtension child fullDirPath "loading" extensions,
            errorPath := findFileWithExtension child fullDirPath "error" extensions,
            notFoundPath := findFileWithExtension child fullDirPath "not-found" extensions,
            isDynamic := segmentInfo.isDynamic,
            isCatchAll := segmentInfo.isCatchAll,
            isOptionalCatchAll := segmentInfo.isOptionalCatchAll,
            paramName := segmentInfo.paramName,
            isGroup := segmentInfo.isGroup }
          (scanDirNode child fullDirPath extensions routePath)
        .cons node (scanEntries tail dirPath extensions parentPath)
end

/-- `scanAppDirectory` of `routeParser.ts`.  `fsDir` is the directory at
`dirPath`; `none` models `fs.existsSync(dirPath)` being false, in which
case the scanner returns the empty list instead of raising. -/
def scanAppDirectory (fsDir : Option DirNode) (dirPath : String)
    (extensions : List String) (parentPath : String) : RouteNodeList :=
  match fsDir with
  | none => .nil
  | some d => scanDirNode d dirPath extensions parentPath

/-- Result record of `getRootPage`. -/
structure RootPage where
  pagePath : Option String
  layoutPath : Option String
  loadingPath : Option String
  errorPath : Option String
deriving DecidableEq

/-- `getRootPage` of `routeParser.ts`: the convention files found directly
in the app root (no `not-found` lookup in the source). -/
def getRootPage (fsDir : Option DirNode) (appDir : String)
    (extensions : List String) : RootPage :=
  match fsDir with
  | none =>
      { pagePath := none, layoutPath := none, loadingPath := none, errorPath := none }
  | some d =>
      { pagePath := findFileWithExtension d appDir "page" extensions,
        layoutPath := findFileWithExtension d appDir "layout" extensions,
        loadingPath := findFileWithExtension d appDir "loading" extensions,
        errorPath := findFileWithExtension d appDir "error" extensions }

/-! ## Flattening (`ParsedRoute`, `flattenRoutes`) -/

/-- `ParsedRoute` of `types.ts`.  `layoutNotFoundMap` is the optional
layout-path → not-found-path mapping read by the code generator; the
flattener of the source never populates it (nor `notFoundPath`). -/
structure ParsedRoute where
  pattern : String
  pagePath : String
  layouts : List String
  loadingPath : Option String
  errorPath : Option String
  notFoundPath : Option String
  layoutNotFoundMap : Option (List (String × String))
deriving DecidableEq

/-- The node loop of `flattenRoutes`: one pass over the sibling list with
the `layouts` chain already resolved.  The source guards the child
recursion with `children.length > 0`, which is equivalent to recursing
into an empty list. -/
def flattenGo : RouteNodeList → List String → List ParsedRoute
  | .nil, _ => []
  | .cons (.mk info children) tail, layouts =>
      let currentLayouts :=
        match info.layoutPath with
        | some lp => layouts ++ [lp]
        | none => layouts
      let here : List ParsedRoute :=
        match info.pagePath with
        | some pp =>
            [{ pattern := if info.path == "" then "/" else info.path,
               pagePath := pp,
               layouts := currentLayouts,
               loadingPath := info.loadingPath,
               errorPath := info.errorPath,
               notFoundPath := none,
               layoutNotFoundMap := none }]
        | none => []
      here ++ flattenGo children currentLayouts ++ flattenGo tail layouts

/-- `flattenRoutes` of `routeParser.ts`: resolve the inherited layout
chain (prepending the root layout when given) and walk the tree. -/
def flattenRoutes (nodes : RouteNodeList) (parentLayouts : List String)
    (rootLayoutPath : Option String) : List ParsedRoute :=
  let layouts :=
    match rootLayoutPath with
    | some r => r :: parentLayouts
    | none => parentLayouts
  flattenGo nodes layouts

/-! ## `pathToIdentifier` -/

/-- Collapse runs of underscores to a single underscore
(JavaScript `replace` with an `_+` pattern). -/
def collapseUnderscoreRuns : List Char → List Char
  | [] => []
  | [c] => [c]
  | a :: b :: rest =>
      if a == '_' && b == '_' then collapseUnderscoreRuns (b :: rest)
      else a :: collapseUnderscoreRuns (b :: rest)

/-- Remove one trailing underscore (JavaScript `replace` anchored at the
end of the string). -/
def dropOneTrailingUnderscore (l : List Char) : List Char :=
  match l.reverse with
  | '_' :: rest => rest.reverse
  | _ => l

/-- JavaScript `split('_')` on a character list. -/
def splitOnUnderscore : List Char → List (List Char)
  | [] => [[]]
  | '_' :: rest => [] :: splitOnUnderscore rest
  | c :: rest =>
      match splitOnUnderscore rest with
      | [] => [[c]]
      | p :: ps => (c :: p) :: ps

/-- `part.charAt(0).toUpperCase() + part.slice(1)`. -/
def capitalizePart : List Char → List Char
  | [] => []
  | c :: rest => c.toUpper :: rest

/-- `pathToIdentifier` of `routeParser.ts`: sanitize a route path into an
identifier by replacing separators with `_`, collapsing and trimming
underscores, then capitalizing each `_`-separated part. -/
def pathToIdentifier (routePath : String) : String :=
  if routePath == "/" || routePath == "" then "Root"
  else
    let cs := routePath.toList
    let cs := match cs with
      | '/' :: rest => rest
      | l => l
    let cs := cs.map fun c =>
      if c == '/' || c == ':' || c == '*' || c == '[' || c == ']' then '_' else c
    let cs := collapseUnderscoreRuns cs
    let cs := dropOneTrailingUnderscore cs
    let parts := splitOnUnderscore cs
    String.mk (parts.map capitalizePart).flatten

/-! ## `parseAppRouter` -/

/-- Result record of `parseAppRouter`. -/
structure ParseResult where
  routes : List ParsedRoute
  tree : RouteNodeList
  rootLayout : Option String
  rootPage : Option String

/-- `parseAppRouter` of `routeParser.ts`: scan, resolve the root
convention files, flatten, and unshift the implicit root route when a
root page exists. -/
def parseAppRouter (fsDir : Option DirNode) (appDir : String)
    (extensions : List String) : ParseResult :=
  let tree := scanAppDirectory fsDir appDir extensions ""
  let root := getRootPage fsDir appDir extensions
  let routes := flattenRoutes tree [] root.layoutPath
  let routes :=
    match root.pagePath with
    | some pp =>
        { pattern := "/",
          pagePath := pp,
          layouts := match root.layoutPath with
            | some l => [l]
            | none => [],
          loadingPath := root.loadingPath,
          errorPath := root.errorPath,
          notFoundPath := none,
          layoutNotFoundMap := none } :: routes
    | none => routes
  { routes := routes, tree := tree,
    rootLayout := root.layoutPath, rootPage := root.pagePath }

/-! ## Code generator (`codeGenerator.ts`) -/

/-- Import specifiers used by the generator: `import { name }` and
`import name from`. -/
inductive ImportSpec where
  | named (name : String)
  | defaultSpec (name : String)
deriving DecidableEq

/-- The expression forms produced through `@babel/types` by the
generator: identifiers, string / boolean / null literals, calls of a named
callee, zero-argument arrow functions, object and array literals.  Object
property keys are always identifiers in the source, so a property is a
name/expression pair. -/
inductive BabelExpr where
  | ident (name : String)
  | str (s : String)
  | boolLit (b : Bool)
  | nullLit
  | call (callee : String) (args : List BabelExpr)
  | arrow (body : BabelExpr)
  | obj (props : List (String × BabelExpr))
  | arr (elems : List BabelExpr)

/-- The statement forms produced by the generator: import declarations,
`const` declarations, `export function name() { return body; }`,
`export { local as exported, ... }` and `export default name`. -/
inductive BabelStmt where
  | importDecl (specs : List ImportSpec) (source : String)
  | constDecl (name : String) (init : BabelExpr)
  | exportNamedFunction (name : String) (body : BabelExpr)
  | exportNamedSpecs (specs : List (String × String))
  | exportDefault (name : String)

/-- `createLazyImport`: `const name = lazy(() => import('/path'));`. -/
def createLazyImport (name path : String) : BabelStmt :=
  .constDecl name (.call "lazy" [.arrow (.call "import" [.str ("/" ++ path)])])

/-- `createCreateElementCallExpression`: a `createElement` call whose
component is an identifier, or a string literal for HTML elements. -/
def createCreateElementCallExpression (component : String) (props : BabelExpr)
    (children : List BabelExpr) (isStringLiteral : Bool) : BabelExpr :=
  .call "createElement"
    ((if isStringLiteral then BabelExpr.str component else BabelExpr.ident component)
      :: props :: children)

/-- `createSuspenseWrapper`: wrap a component in `Suspense` with the custom
loading component (or a placeholder `div`) as fallback when `lazy`, else a
bare `createElement` of the component. -/
def createSuspenseWrapper (componentName : String) (lazy_ : Bool)
    (loadingComponentName : Option String) : BabelExpr :=
  let fallback :=
    match loadingComponentName with
    | some n => createCreateElementCallExpression n .nullLit [] false
    | none =>
        createCreateElementCallExpression "div" .nullLit [.str "Loading..."] true
  if lazy_ then
    createCreateElementCallExpression "Suspense"
      (.obj [("fallback", fallback)])
      [createCreateElementCallExpression componentName .nullLit [] false] false
  else
    createCreateElementCallExpression componentName .nullLit [] false

/-- `normalizeImportPath`: strip the root-dir prefix, turn backslashes
into slashes, drop a known script extension, drop one leading slash. -/
def normalizeImportPath (filePath rootDir : String) : String :=
  let relativePath :=
    if strStartsWith filePath rootDir then strDrop filePath rootDir.length
    else filePath
  let cs := (relativePath.toList.map fun c => if c == '\\' then '/' else c)
  let cs :=
    if strEndsWith (String.mk cs) ".tsx" || strEndsWith (String.mk cs) ".jsx" then
      dropRightChars cs 4
    else if strEndsWith (String.mk cs) ".ts" || strEndsWith (String.mk cs) ".js" then
      dropRightChars cs 3
    else cs
  match cs with
  | '/' :: rest => String.mk rest
  | l => String.mk l

/-- `generateImportName`: the sanitized path, or the running counter when
the sanitization collapses to the empty string. -/
def generateImportName (pre : String) (filePath : String) (index : Nat) : String :=
  let safePath := pathToIdentifier filePath
  pre ++ (if safePath == "" then Nat.repr index else safePath)

/-- First-match lookup in an association list (JavaScript `Map.get`). -/
def mapGet? : List (String × String) → String → Option String
  | [], _ => none
  | p :: rest, k => if p.1 == k then some p.2 else mapGet? rest k

/-- JavaScript `Map.has`. -/
def mapHas (m : List (String × String)) (k : String) : Bool :=
  m.any (fun p => p.1 == k)

/-- JavaScript `Map.set`: replace the value of an existing key in place,
else append the binding (insertion order preserved). -/
def mapSet (m : List (String × String)) (k v : String) : List (String × String) :=
  if mapHas m k then m.map (fun p => if p.1 == k then (k, v) else p)
  else m ++ [(k, v)]

/-- The TypeScript non-null assertion `map.get(k)!`: a missing key flows
on as `undefined`. -/
def mapGetBang (m : List (String × String)) (k : String) : String :=
  (mapGet? m k).getD "undefined"

/-- The mutable state of `collectImports`: the emitted statements, the
five path→identifier maps, the five counters, and the four seen-sets. -/
structure CollectState where
  statements : List BabelStmt
  componentMap : List (String × String)
  layoutMap : List (String × String)
  loadingMap : List (String × String)
  errorMap : List (String × String)
  notFoundMap : List (String × String)
  pageIndex : Nat
  layoutIndex : Nat
  loadingIndex : Nat
  errorIndex : Nat
  notFoundIndex : Nat
  seenLayouts : List String
  seenLoading : List String
  seenError : List String
  seenNotFound : List String

/-- The recurring `if (lazy) push(createLazyImport(...)) else
push(createImportDeclaration([createDefaultImport(...)], '/' + path))`. -/
def componentImportStmt (lazy_ : Bool) (name importPath : String) : BabelStmt :=
  if lazy_ then createLazyImport name importPath
  else .importDecl [.defaultSpec name] ("/" ++ importPath)

/-- One iteration of the layout loop of `collectImports`: import the
layout file unless it was already seen. -/
def layoutImportStep (rootDir : String) (lazy_ : Bool)
    (st : CollectState) (layoutPath : String) : CollectState :=
  if st.seenLayouts.contains layoutPath then st
  else
    let layoutName := "Layout" ++ Nat.repr st.layoutIndex
    { st with
      seenLayouts := st.seenLayouts ++ [layoutPath],
      layoutIndex := st.layoutIndex + 1,
      statements := st.statements ++
        [componentImportStmt lazy_ layoutName (normalizeImportPath layoutPath rootDir)],
      layoutMap := mapSet st.layoutMap layoutPath layoutName }

/-- The layout part of the per-route loop of `collectImports`. -/
def collectLayoutImports (rootDir : String) (lazy_ : Bool)
    (st : CollectState) (layouts : List String) : CollectState :=
  layouts.foldl (layoutImportStep rootDir lazy_) st

/-- The page part of the per-route loop of `collectImports`. -/
def collectPageImport (rootDir : String) (lazy_ : Bool)
    (st : CollectState) (route : ParsedRoute) : CollectState :=
  let pageName := "Page" ++ generateImportName "" route.pattern st.pageIndex
  { st with
    pageIndex := st.pageIndex + 1,
    statements := st.statements ++
      [componentImportStmt lazy_ pageName (normalizeImportPath route.pagePath rootDir)],
    componentMap := mapSet st.componentMap route.pagePath pageName }

/-- The loading part of the per-route loop of `collectImports`. -/
def collectLoadingImport (rootDir : String) (lazy_ : Bool)
    (st : CollectState) (loadingPath : Option String) : CollectState :=
  match loadingPath with
  | some lp =>
      if st.seenLoading.contains lp then st
      else
        let loadingName := "Loading" ++ Nat.repr st.loadingIndex
        { st with
          seenLoading := st.seenLoading ++ [lp],
          loadingIndex := st.loadingIndex + 1,
          statements := st.statements ++
            [componentImportStmt lazy_ loadingName (normalizeImportPath lp rootDir)],
          loadingMap := mapSet st.loadingMap lp loadingName }
  | none => st

/-- The error part of the per-route loop of `collectImports`. -/
def collectErrorImport (rootDir : String) (lazy_ : Bool)
    (st : CollectState) (errorPath : Option String) : CollectState :=
  match errorPath with
  | some ep =>
      if st.seenError.contains ep then st
      else
        let errorName := "ErrorBoundary" ++ Nat.repr st.errorIndex
        { st with
          seenError := st.seenError ++ [ep],
          errorIndex := st.errorIndex + 1,
          statements := st.statements ++
            [componentImportStmt lazy_ errorName (normalizeImportPath ep rootDir)],
          errorMap := mapSet st.errorMap ep errorName }
  | none => st

/-- The seen-guarded not-found import, shared by the `notFoundPath` part
of the per-route loop and by the `layoutNotFoundMap` loop. -/
def collectNotFoundImport (rootDir : String) (lazy_ : Bool)
    (st : CollectState) (notFoundPath : Option String) : CollectState :=
  match notFoundPath with
  | some nfp =>
      if st.seenNotFound.contains nfp then st
      else
        let notFoundName := "NotFound" ++ Nat.repr st.notFoundIndex
        { st with
          seenNotFound := st.seenNotFound ++ [nfp],
          notFoundIndex := st.notFoundIndex + 1,
          statements := st.statements ++
            [componentImportStmt lazy_ notFoundName (normalizeImportPath nfp rootDir)],
          notFoundMap := mapSet st.notFoundMap nfp notFoundName }
  | none => st

/-- The `layoutNotFoundMap` part of the per-route loop of `collectImports`. -/
def collectLayoutNotFoundImports (rootDir : String) (lazy_ : Bool)
    (st : CollectState) (entries : List (String × String)) : CollectState :=
  entries.foldl
    (fun st entry => collectNotFoundImport rootDir lazy_ st (some entry.2))
    st

/-- The body of the `for (const route of routes)` loop of
`collectImports`: page import, layout imports, loading / error /
not-found imports, then the `layoutNotFoundMap` imports. -/
def collectRouteImports (rootDir : String) (lazy_ : Bool)
    (st : CollectState) (route : ParsedRoute) : CollectState :=
  let st := collectPageImport rootDir lazy_ st route
  let st := collectLayoutImports rootDir lazy_ st route.layouts
  let st := collectLoadingImport rootDir lazy_ st route.loadingPath
  let st := collectErrorImport rootDir lazy_ st route.errorPath
  let st := collectNotFoundImport rootDir lazy_ st route.notFoundPath
  match route.layoutNotFoundMap with
  | some entries => collectLayoutNotFoundImports rootDir lazy_ st entries
  | none => st

/-- The fixed `react-router-dom` import emitted first. -/
def reactRouterDomImport : BabelStmt :=
  .importDecl
    [.named "createBrowserRouter", .named "RouterProvider", .named "Outlet"]
    "react-router-dom"

/-- The `react` import: default `React` plus `Suspense`/`createElement`,
with `lazy` unshifted in front of them in lazy mode. -/
def reactImport (lazy_ : Bool) : BabelStmt :=
  .importDecl
    (.defaultSpec "React" ::
      (if lazy_ then
        [ImportSpec.named "lazy", .named "Suspense", .named "createElement"]
      else [ImportSpec.named "Suspense", .named "createElement"]))
    "react"

/-- The trailing part of `collectImports`: import the root not-found
file when one is supplied and it was not already imported through a
route (the source does not add it to the seen-set here). -/
def collectRootNotFoundImport (rootDir : String) (lazy_ : Bool)
    (st : CollectState) (rootNotFound : Option String) : CollectState :=
  match rootNotFound with
  | some rnf =>
      if st.seenNotFound.contains rnf then st
      else
        let notFoundName := "NotFound" ++ Nat.repr st.notFoundIndex
        { st with
          notFoundIndex := st.notFoundIndex + 1,
          statements := st.statements ++
            [componentImportStmt lazy_ notFoundName (normalizeImportPath rnf rootDir)],
          notFoundMap := mapSet st.notFoundMap rnf notFoundName }
  | none => st

/-- `collectImports` of `codeGenerator.ts`: the two library imports, the
per-route imports in route order, then the trailing root not-found import
when it was not already imported through a route. -/
def collectImports (routes : List ParsedRoute) (rootDir : String)
    (lazy_ : Bool) (rootNotFound : Option String) : CollectState :=
  let init : CollectState :=
    { statements := [reactRouterDomImport, reactImport lazy_],
      componentMap := [], layoutMap := [], loadingMap := [],
      errorMap := [], notFoundMap := [],
      pageIndex := 0, layoutIndex := 0, loadingIndex := 0,
      errorIndex := 0, notFoundIndex := 0,
      seenLayouts := [], seenLoading := [], seenError := [], seenNotFound := [] }
  let st := routes.foldl (collectRouteImports rootDir lazy_) init
  collectRootNotFoundImport rootDir lazy_ st rootNotFound

/-- `buildRouteProps` (local to `buildRouteExpression`): append an
`errorElement` property when the route has an error component. -/
def buildRouteProps (errorName : Option String)
    (props : List (String × BabelExpr)) : BabelExpr :=
  match errorName with
  | some en =>
      .obj (props ++
        [("errorElement", createCreateElementCallExpression en .nullLit [] false)])
  | none => .obj props

/-- `buildRouteExpression` of `codeGenerator.ts`: the innermost route
object (index flag or path), wrapped outward through the inner layouts
(all but the outermost), attaching a catch-all not-found sibling under
each layout that has one in `layoutNotFoundMap`. -/
def buildRouteExpression (route : ParsedRoute)
    (componentMap layoutMap loadingMap errorMap notFoundMap : List (String × String))
    (lazy_ : Bool) : BabelExpr :=
  let pageName := mapGetBang componentMap route.pagePath
  let isIndex := route.pattern == "/"
  let path :=
    if isIndex then ""
    else match route.pattern.toList with
      | '/' :: rest => String.mk rest
      | l => String.mk l
  let loadingName :=
    match route.loadingPath with
    | some lp => mapGet? loadingMap lp
    | none => none
  let errorName :=
    match route.errorPath with
    | some ep => mapGet? errorMap ep
    | none => none
  let pageElement := createSuspenseWrapper pageName lazy_ loadingName
  let getLayoutNotFoundName : String → Option String := fun layoutPath =>
    match route.layoutNotFoundMap with
    | none => none
    | some m =>
        match (m.find? (fun p => p.1 == layoutPath)).map (·.2) with
        | some nfPath => mapGet? notFoundMap nfPath
        | none => none
  let base :=
    if isIndex then
      buildRouteProps errorName
        [("index", .boolLit true), ("element", pageElement)]
    else
      buildRouteProps errorName
        [("path", .str path), ("element", pageElement)]
  if route.layouts.length > 1 then
    (route.layouts.drop 1).reverse.foldl
      (fun innerRoute layoutPath =>
        let innerLayoutName := mapGetBang layoutMap layoutPath
        let layoutNotFoundName := getLayoutNotFoundName layoutPath
        let childrenRoutes :=
          innerRoute ::
            (match layoutNotFoundName with
             | some n =>
                 [BabelExpr.obj
                   [("path", .str "*"),
                    ("element", createSuspenseWrapper n lazy_ none)]]
             | none => [])
        BabelExpr.obj
          [("element", createSuspenseWrapper innerLayoutName lazy_ loadingName),
           ("children", .arr childrenRoutes)])
      base
  else base

/-- `CodeGeneratorOptions` of `codeGenerator.ts`. -/
structure CodeGeneratorOptions where
  rootDir : String
  lazy_ : Bool
  rootNotFound : Option String

/-- The `export function AppRouter() { return createElement(RouterProvider,
{ router }); }` statement. -/
def appRouterFunctionStmt : BabelStmt :=
  .exportNamedFunction "AppRouter"
    (.call "createElement"
      [.ident "RouterProvider", .obj [("router", .ident "router")]])

/-- `generateEmptyRoutesAST`: the minimal fallback module for an empty
route list. -/
def generateEmptyRoutesAST : List BabelStmt :=
  [ .importDecl [.named "createElement"] "react",
    .importDecl [.named "createBrowserRouter", .named "RouterProvider"]
      "react-router-dom",
    .constDecl "router" (.call "createBrowserRouter" [.arr []]),
    appRouterFunctionStmt,
    .exportNamedSpecs [("router", "router")],
    .exportDefault "AppRouter" ]

/-- The grouping loop of `generateRoutesAST`: routes bucketed by their
first layout in insertion order, with the layout-less routes kept apart. -/
def groupByRootLayout (routes : List ParsedRoute) :
    List (String × List ParsedRoute) × List ParsedRoute :=
  routes.foldl
    (fun acc route =>
      match route.layouts with
      | [] => (acc.1, acc.2 ++ [route])
      | rootLayout :: _ =>
          if acc.1.any (fun p => p.1 == rootLayout) then
            (acc.1.map
              (fun p => if p.1 == rootLayout then (p.1, p.2 ++ [route]) else p),
             acc.2)
          else (acc.1 ++ [(rootLayout, [route])], acc.2))
    ([], [])

/-- `generateRoutesAST` of `codeGenerator.ts`: imports, the grouped route
definitions, the root-level catch-all for the root not-found, the
`routes` and `router` constants, and the exports.  Falls back to
`generateEmptyRoutesAST` when the route list is empty. -/
def generateRoutesAST (routes : List ParsedRoute)
    (options : CodeGeneratorOptions) : List BabelStmt :=
  if routes.isEmpty then generateEmptyRoutesAST
  else
    let st := collectImports routes options.rootDir options.lazy_ options.rootNotFound
    let grouped := groupByRootLayout routes
    let withLayoutDefs := grouped.1.map fun group =>
      let rootLayoutPath := group.1
      let layoutRoutes := group.2
      let rootLayoutName := mapGetBang st.layoutMap rootLayoutPath
      let rootLoadingName :=
        match layoutRoutes.head?.bind (·.loadingPath) with
        | some lp => mapGet? st.loadingMap lp
        | none => none
      let rootErrorName :=
        match layoutRoutes.head?.bind (·.errorPath) with
        | some ep => mapGet? st.errorMap ep
        | none => none
      let childRoutes := layoutRoutes.map fun r =>
        buildRouteExpression r st.componentMap st.layoutMap st.loadingMap
          st.errorMap st.notFoundMap options.lazy_
      let baseProps :=
        [("path", BabelExpr.str "/"),
         ("element", createSuspenseWrapper rootLayoutName options.lazy_ rootLoadingName),
         ("children", BabelExpr.arr childRoutes)]
      match rootErrorName with
      | some en =>
          BabelExpr.obj (baseProps ++
            [("errorElement", createCreateElementCallExpression en .nullLit [] false)])
      | none => BabelExpr.obj baseProps
    let withoutLayoutDefs := grouped.2.map fun route =>
      let pageName := mapGetBang st.componentMap route.pagePath
      let loadingName :=
        match route.loadingPath with
        | some lp => mapGet? st.loadingMap lp
        | none => none
      let errorName :=
        match route.errorPath with
        | some ep => mapGet? st.errorMap ep
        | none => none
      let baseProps :=
        [("path", BabelExpr.str route.pattern),
         ("element", createSuspenseWrapper pageName options.lazy_ loadingName)]
      match errorName with
      | some en =>
          BabelExpr.obj (baseProps ++
            [("errorElement", createCreateElementCallExpression en .nullLit [] false)])
      | none => BabelExpr.obj baseProps
    let notFoundDefs :=
      match options.rootNotFound with
      | some rnf =>
          if mapHas st.notFoundMap rnf then
            [BabelExpr.obj
              [("path", .str "*"),
               ("element",
                 createSuspenseWrapper (mapGetBang st.notFoundMap rnf)
                   options.lazy_ none)]]
          else []
      | none => []
    st.statements ++
      [ .constDecl "routes"
          (.arr (withLayoutDefs ++ withoutLayoutDefs ++ notFoundDefs)),
        .constDecl "router" (.call "createBrowserRouter" [.ident "routes"]),
        appRouterFunctionStmt,
        .exportNamedSpecs [("router", "router"), ("routes", "routes")],
        .exportDefault "AppRouter" ]

/-! ## Observation helpers on the generated module -/

/-- The names a generated module exports: declared exports, the exported
name of each export specifier, and `default` for the default export. -/
def exportedNames (stmts : List BabelStmt) : List String :=
  stmts.flatMap fun s =>
    match s with
    | .exportNamedFunction n _ => [n]
    | .exportNamedSpecs specs => specs.map (·.2)
    | .exportDefault _ => ["default"]
    | _ => []

/-- The elements of the `const routes = [...]` array of a generated
module (empty when there is no such constant). -/
def routesArrayOf (stmts : List BabelStmt) : List BabelExpr :=
  match stmts.findSome? fun s =>
    match s with
    | .constDecl n (.arr es) => if n == "routes" then some es else none
    | _ => none
  with
  | some es => es
  | none => []

/-- Does a route-configuration object expression carry an `index`
property? -/
def hasIndexProp : BabelExpr → Bool
  | .obj props => props.any (fun p => p.1 == "index")
  | _ => false

/-- The string value of the `path` property of a route-configuration
object expression, when present. -/
def pathPropValue : BabelExpr → Option String
  | .obj props =>
      match props.find? (fun p => p.1 == "path") with
      | some (_, .str s) => some s
      | _ => none
  | _ => none

/-- The identifier an import statement binds: the default-import name of
an import declaration, or the constant name of a lazy import. -/
def stmtImportName? : BabelStmt → Option String
  | .importDecl (ImportSpec.defaultSpec n :: _) _ => some n
  | .constDecl n _ => some n
  | _ => none

/-- The module source an import statement loads: the source of an import
declaration, or the literal inside `lazy(() => import('...'))`. -/
def stmtImportSource? : BabelStmt → Option String
  | .importDecl _ src => some src
  | .constDecl _ (.call "lazy" [.arrow (.call "import" [.str src])]) => some src
  | _ => none

/-- Is `pre` a prefix of the identifier `n`? -/
def hasNamePrefix (pre n : String) : Bool :=
  pre.toList.isPrefixOf n.toList

/-- The page-import identifiers of a statement list, in order: the bound
names of import statements whose identifier starts with `Page` (the
collector names pages `Page...`, layouts `Layout<n>`, loading components
`Loading<n>`, error components `ErrorBoundary<n>`, not-found components
`NotFound<n>`). -/
def pageImportNames (stmts : List BabelStmt) : List String :=
  stmts.flatMap fun s =>
    match stmtImportName? s with
    | some n => if hasNamePrefix "Page" n then [n] else []
    | none => []

/-- The sources of the layout import statements of a statement list, in
order (import statements whose bound identifier starts with `Layout`). -/
def layoutImportSources (stmts : List BabelStmt) : List String :=
  stmts.flatMap fun s =>
    match stmtImportName? s, stmtImportSource? s with
    | some n, some src => if hasNamePrefix "Layout" n then [src] else []
    | _, _ => []

/-- The evolution of a `Set`-guarded `push`: append the element unless it
is already present. -/
def seenInsert (s : List String) (x : String) : List String :=
  if s.contains x then s else s ++ [x]

/-- First-occurrence deduplication, exactly the evolution of a
`Set`-guarded `push` over the list. -/
def dedupFirst (l : List String) : List String :=
  l.foldl seenInsert []

/-- The layout bindings for a first-occurrence list of layout files,
starting at counter value `n`: the `i`-th file is bound to `Layout<n+i>`. -/
def mkLayoutMapFrom (n : Nat) : List String → List (String × String)
  | [] => []
  | f :: rest => (f, "Layout" ++ Nat.repr n) :: mkLayoutMapFrom (n + 1) rest

/-- The layout map the collector builds from the first-occurrence list of
layout files: the `i`-th distinct file is bound to `Layout<i>`. -/
def mkLayoutMap (seen : List String) : List (String × String) :=
  mkLayoutMapFrom 0 seen

/-- The expected page-import identifier list starting at counter value
`n`: each route gets `Page` followed by its sanitized pattern, or by the
counter when the sanitization is empty. -/
def pageNamesSpecFrom (n : Nat) : List ParsedRoute → List String
  | [] => []
  | r :: rest =>
      ("Page" ++ generateImportName "" r.pattern n) :: pageNamesSpecFrom (n + 1) rest

/-- The expected page-import identifier list: the route at position `i`
gets `Page` followed by its sanitized pattern, or by `i` when the
sanitization is empty. -/
def pageNamesSpec (routes : List ParsedRoute) : List String :=
  pageNamesSpecFrom 0 routes

/-- The running relationship between the collector's layout bookkeeping
and its emitted statements: the counter equals the number of seen layout
files, the layout map binds the `i`-th seen file to `Layout<i>`, and the
layout import statements emitted so far are exactly one per seen file, in
order. -/
def layoutInv (rootDir : String) (st : CollectState) : Prop :=
  st.layoutIndex = st.seenLayouts.length ∧
  st.layoutMap = mkLayoutMap st.seenLayouts ∧
  layoutImportSources st.statements =
    st.seenLayouts.map fun f => "/" ++ normalizeImportPath f rootDir

/-! ## Concrete fixtures used by the closed theorems -/

/-- The app directory of the scenario `app/blog/[slug]/page.ext`. -/
def blogFS : DirNode :=
  .mk [] (.cons "blog" (.mk [] (.cons "[slug]" (.mk ["page.tsx"] .nil) .nil)) .nil)

/-- An app directory whose root-level `dash` directory has a page and a
loading file, with a `settings` page below it that declares no loading
file of its own. -/
def inheritFS : DirNode :=
  .mk []
    (.cons "dash"
      (.mk ["page.tsx", "loading.tsx"]
        (.cons "settings" (.mk ["page.tsx"] .nil) .nil))
      .nil)

/-- An app directory holding only a root `page.tsx`. -/
def lonePageFS : DirNode := .mk ["page.tsx"] .nil

/-- The routes of the lone-root-page scenario. -/
def lonePageRoutes : List ParsedRoute :=
  (parseAppRouter (some lonePageFS) "src/app" DEFAULT_EXTENSIONS).routes

/-- The module generated for the lone-root-page scenario. -/
def lonePageModule : List BabelStmt :=
  generateRoutesAST lonePageRoutes
    { rootDir := "src", lazy_ := true, rootNotFound := none }

/-- A page-less, file-less route node for a given directory name, carrying
exactly the classification `parseSegment` gives that name (as the scanner
would build it at the root level). -/
def bareNode (seg : String) : RouteNode :=
  let i := parseSegment seg
  RouteNode.mk
    { segment := seg,
      path := if i.routeSegment == "" then "/" else "/" ++ i.routeSegment,
      pagePath := none, layoutPath := none, loadingPath := none,
      errorPath := none, notFoundPath := none,
      isDynamic := i.isDynamic, isCatchAll := i.isCatchAll,
      isOptionalCatchAll := i.isOptionalCatchAll,
      paramName := i.paramName, isGroup := i.isGroup }
    .nil

/-- Two routes whose patterns differ but sanitize to the same identifier
(`/a/b` and `/a_b` both sanitize to `AB`). -/
def collidingRouteA : ParsedRoute :=
  { pattern := "/a/b", pagePath := "src/app/a/b/page.tsx", layouts := [],
    loadingPath := none, errorPath := none, notFoundPath := none,
    layoutNotFoundMap := none }

/-- Companion of `collidingRouteA`; see there. -/
def collidingRouteB : ParsedRoute :=
  { pattern := "/a_b", pagePath := "src/app/a_b/page.tsx", layouts := [],
    loadingPath := none, errorPath := none, notFoundPath := none,
    layoutNotFoundMap := none }

/-- Two routes sharing one layout file, for the deduplication witnesses. -/
def sharedLayoutRouteA : ParsedRoute :=
  { pattern := "/x", pagePath := "src/app/x/page.tsx",
    layouts := ["src/app/layout.tsx"], loadingPath := none,
    errorPath := none, notFoundPath := none, layoutNotFoundMap := none }

/-- Companion of `sharedLayoutRouteA`; see there. -/
def sharedLayoutRouteB : ParsedRoute :=
  { pattern := "/y", pagePath := "src/app/y/page.tsx",
    layouts := ["src/app/layout.tsx"], loadingPath := none,
    errorPath := none, notFoundPath := none, layoutNotFoundMap := none }

/-- `isCatchAll || isOptionalCatchAll`: the guard the sort comparator
checks first. -/
def catchAllish (n : RouteNode) : Bool :=
  n.isCatchAll || n.isOptionalCatchAll

/-! ## Theorems -/

/-- C9: when the root directory path does not exist (`existsSync` false,
modelled by `none`), the scanner returns the empty node list — for every
path, extension list and parent path — instead of raising an error; the
scanner is a total function in the embedding. -/
theorem scan_missing_root_returns_empty (dirPath : String)
    (extensions : List String) (parentPath : String) :
    scanAppDirectory none dirPath extensions parentPath = .nil := rfl

/-- C7 counterexample: the catch-all directory name `[...doc]` is
classified with `isCatchAll` *and* `isDynamic` both true, so the four
boolean flags are not mutually exclusive as the claim states. -/
theorem parseSegment_catchAll_also_dynamic :
    (parseSegment "[...doc]").isCatchAll = true ∧
    (parseSegment "[...doc]").isDynamic = true := by decide

/-- C7 amended: for every directory name, a group has all other flags
false, at most one of `isCatchAll` / `isOptionalCatchAll` is true, but a
catch-all or optional catch-all segment additionally sets `isDynamic`, so
`isDynamic` is not exclusive with those two flags. -/
theorem parseSegment_flag_exclusivity (segment : String) :
    ((parseSegment segment).isGroup = true →
      (parseSegment segment).isDynamic = false ∧
      (parseSegment segment).isCatchAll = false ∧
      (parseSegment segment).isOptionalCatchAll = false) ∧
    (¬((parseSegment segment).isCatchAll = true ∧
        (parseSegment segment).isOptionalCatchAll = true)) ∧
    ((parseSegment segment).isCatchAll = true ∨
        (parseSegment segment).isOptionalCatchAll = true →
      (parseSegment segment).isDynamic = true) := by
  unfold parseSegment
  split
  · simp
  · split
    · simp
    · split
      · simp
      · split <;> simp

/-- Witness for `parseSegment_flag_exclusivity` at the group name
`(marketing)`. -/
theorem parseSegment_flag_witness :
    (parseSegment "(marketing)").isGroup = true ∧
    ((parseSegment "(marketing)").isDynamic = false ∧
     (parseSegment "(marketing)").isCatchAll = false ∧
     (parseSegment "(marketing)").isOptionalCatchAll = false) :=
  ⟨by decide, (parseSegment_flag_exclusivity "(marketing)").1 (by decide)⟩

/-- C4 counterexample: for the tree holding only
`app/blog/[slug]/page.tsx`, the flattened pattern list is not
`["/:slug"]` as the claim states. -/
theorem blog_slug_pattern_counterexample :
    ¬(((flattenRoutes (scanAppDirectory (some blogFS) "src/app" DEFAULT_EXTENSIONS "")
        [] none).map (·.pattern)) = ["/:slug"]) := by decide

/-- C4 amended: the flattener produces exactly one resolved route for
that tree, and its pattern is `/blog/:slug` (the `blog` segment
contributes its literal fragment before the parameter). -/
theorem blog_slug_pattern :
    ((flattenRoutes (scanAppDirectory (some blogFS) "src/app" DEFAULT_EXTENSIONS "")
        [] none).map (·.pattern)) = ["/blog/:slug"] := by decide

/-- C1, evaluation at the failing input: in a tree whose `dash` directory
declares `loading.tsx` and whose `dash/settings` child declares none, the
flattener gives the child route no loading path at all instead of the
nearest ancestor's — `flattenRoutes` reads only the node's own
`loadingPath`/`errorPath` and never propagates them down. -/
theorem flatten_drops_inherited_loading :
    ((flattenRoutes (scanAppDirectory (some inheritFS) "src/app" DEFAULT_EXTENSIONS "")
        [] none).map fun r => (r.pattern, r.loadingPath)) =
      [("/dash", some "src/app/dash/loading.tsx"), ("/dash/settings", none)] := by decide

/-- C2 counterexample: for an app directory holding only a root page
file, the generated route-configuration array has one entry but *zero*
entries carrying an `index` property — the claim's `index: true` entry
does not exist. -/
theorem lone_page_no_index_counterexample :
    (routesArrayOf lonePageModule).countP hasIndexProp = 0 ∧
    (routesArrayOf lonePageModule).length = 1 := by decide

/-- C2 amended: for an app directory holding only a root page file, the
pipeline produces exactly one resolved route with pattern `/` and an
empty layout chain, and the generated route-configuration array has
exactly one entry — carrying `path: '/'` and no `index` flag, because a
route without any layout is emitted as a top-level path-keyed
configuration. -/
theorem lone_page_round_trip :
    (lonePageRoutes.map fun r => (r.pattern, r.layouts)) = [("/", [])] ∧
    (routesArrayOf lonePageModule).length = 1 ∧
    (routesArrayOf lonePageModule).map pathPropValue = [some "/"] ∧
    (routesArrayOf lonePageModule).countP hasIndexProp = 0 := by decide

/-- C5 counterexample: for the two catch-all sibling names `[...alpha]`
and `[...beta]`, the comparator returns 1 in *both* orders, so it is not
antisymmetric and does not order the catch-all category by segment
name. -/
theorem catchAll_compare_counterexample :
    routeNodeCompare (bareNode "[...alpha]") (bareNode "[...beta]") = 1 ∧
    routeNodeCompare (bareNode "[...beta]") (bareNode "[...alpha]") = 1 ∧
    (bareNode "[...alpha]").segment ≠ (bareNode "[...beta]").segment := by decide

/-- C6 counterexample: the two distinct routes with patterns `/a/b` and
`/a_b` (as arise from `app/a/b/page.tsx` and `app/a_b/page.tsx`) receive
the *same* generated page identifier `PageAB` — the counter is used only
when the sanitized pattern is empty, so it does not disambiguate
patterns that sanitize to the same identifier. -/
theorem page_identifier_collision :
    collidingRouteA ≠ collidingRouteB ∧
    mapGet? (collectImports [collidingRouteA, collidingRouteB] "src" true none).componentMap
        collidingRouteA.pagePath =
      mapGet? (collectImports [collidingRouteA, collidingRouteB] "src" true none).componentMap
        collidingRouteB.pagePath ∧
    mapGet? (collectImports [collidingRouteA, collidingRouteB] "src" true none).componentMap
        collidingRouteA.pagePath = some "PageAB" := by decide

/-- C3 counterexample: the module generated for the empty route list does
not export `routes`, while the module generated for a non-empty route
list does — the export surfaces differ. -/
theorem empty_module_export_surface_differs :
    ("routes" ∈ exportedNames (generateRoutesAST []
        { rootDir := "src", lazy_ := true, rootNotFound := none }) → False) ∧
    "routes" ∈ exportedNames (generateRoutesAST [collidingRouteA]
        { rootDir := "src", lazy_ := true, rootNotFound := none }) := by decide

/-- The character-list comparison is antisymmetric: swapping the
arguments negates the result. -/
theorem charListCompare_swap (a b : List Char) :
    charListCompare a b = -(charListCompare b a) := by
  induction a generalizing b with
  | nil => cases b <;> simp [charListCompare]
  | cons x as ih =>
      cases b with
      | nil => simp [charListCompare]
      | cons y bs =>
          simp only [charListCompare]
          split_ifs <;> first | omega | exact ih bs

/-- The character-list comparison is transitive on the non-positive
(`before-or-equal`) side. -/
theorem charListCompare_trans_nonpos {a b c : List Char}
    (h1 : charListCompare a b ≤ 0) (h2 : charListCompare b c ≤ 0) :
    charListCompare a c ≤ 0 := by
  induction a generalizing b c with
  | nil => cases c <;> simp [charListCompare]
  | cons x as ih =>
      cases b with
      | nil => simp [charListCompare] at h1
      | cons y bs =>
          cases c with
          | nil => simp [charListCompare] at h2
          | cons z cs =>
              simp only [charListCompare] at h1 h2 ⊢
              split_ifs at h1 h2 ⊢ <;> first | omega | exact ih h1 h2

/-- Unfolding of the comparator when neither side is a catch-all. -/
theorem routeNodeCompare_nonCA (a b : RouteNode)
    (ha : catchAllish a = false) (hb : catchAllish b = false) :
    routeNodeCompare a b =
      if a.isDynamic && !b.isDynamic then 1
      else if !a.isDynamic && b.isDynamic then -1
      else strCompare a.segment b.segment := by
  simp only [catchAllish] at ha hb
  simp only [routeNodeCompare, ha, hb, if_neg]
  simp

/-- The comparator is antisymmetric whenever at most one side is a
catch-all. -/
theorem routeNodeCompare_swap_nonCA (a b : RouteNode)
    (h : catchAllish a = false ∨ catchAllish b = false) :
    routeNodeCompare a b = -(routeNodeCompare b a) := by
  cases ha : catchAllish a with
  | true =>
      rcases h with h' | hb
      · rw [ha] at h'; exact absurd h' (by simp)
      · have h1 : routeNodeCompare a b = 1 := by
          simp only [catchAllish] at ha
          simp [routeNodeCompare, ha]
        have h2 : routeNodeCompare b a = -1 := by
          simp only [catchAllish] at ha hb
          simp [routeNodeCompare, ha, hb]
        simp [h1, h2]
  | false =>
      cases hb : catchAllish b with
      | true =>
          have h1 : routeNodeCompare a b = -1 := by
            simp only [catchAllish] at ha hb
            simp [routeNodeCompare, ha, hb]
          have h2 : routeNodeCompare b a = 1 := by
            simp only [catchAllish] at hb
            simp [routeNodeCompare, hb]
          simp [h1, h2]
      | false =>
          rw [routeNodeCompare_nonCA a b ha hb, routeNodeCompare_nonCA b a hb ha]
          cases hda : a.isDynamic <;> cases hdb : b.isDynamic <;>
            first
              | (simp only [hda, hdb, Bool.not_true, Bool.not_false, Bool.true_and,
                   Bool.false_and, Bool.and_true, Bool.and_false, if_true, if_false,
                   strCompare]
                 exact charListCompare_swap _ _)
              | simp

/-- C5 amended: the comparator places non-catch-alls before catch-alls
and statics before dynamics, breaks ties inside the static and dynamic
categories by locale-lexical comparison of the raw segment name, and is
antisymmetric and transitive away from catch-all pairs; but between two
catch-all siblings it returns 1 in both orders, so there the name
tie-break and antisymmetry of the claim fail. -/
theorem sibling_order_amended :
    (∀ a b : RouteNode, catchAllish b = false → catchAllish a = true →
      routeNodeCompare a b = 1 ∧ routeNodeCompare b a = -1) ∧
    (∀ a b : RouteNode, catchAllish a = false → catchAllish b = false →
      a.isDynamic = false → b.isDynamic = true →
      routeNodeCompare a b = -1 ∧ routeNodeCompare b a = 1) ∧
    (∀ a b : RouteNode, catchAllish a = false → catchAllish b = false →
      a.isDynamic = b.isDynamic →
      routeNodeCompare a b = strCompare a.segment b.segment) ∧
    (∀ a b : RouteNode, catchAllish a = false ∨ catchAllish b = false →
      (0 < routeNodeCompare a b ↔ routeNodeCompare b a < 0)) ∧
    (∀ a b c : RouteNode, catchAllish a = false → catchAllish b = false →
      catchAllish c = false →
      routeNodeCompare a b ≤ 0 → routeNodeCompare b c ≤ 0 →
      routeNodeCompare a c ≤ 0) ∧
    (∀ a b : RouteNode, catchAllish a = true → catchAllish b = true →
      routeNodeCompare a b = 1 ∧ routeNodeCompare b a = 1) := by
  refine ⟨?_, ?_, ?_, ?_, ?_, ?_⟩
  · intro a b hb ha
    constructor
    · simp only [catchAllish] at ha
      simp [routeNodeCompare, ha]
    · simp only [catchAllish] at ha hb
      simp [routeNodeCompare, ha, hb]
  · intro a b ha hb hda hdb
    rw [routeNodeCompare_nonCA a b ha hb, routeNodeCompare_nonCA b a hb ha]
    simp [hda, hdb]
  · intro a b ha hb hd
    rw [routeNodeCompare_nonCA a b ha hb, hd]
    cases hdb : b.isDynamic <;> simp
  · intro a b hab
    rw [routeNodeCompare_swap_nonCA a b hab]
    omega
  · intro a b c ha hb hc h1 h2
    rw [routeNodeCompare_nonCA a b ha hb] at h1
    rw [routeNodeCompare_nonCA b c hb hc] at h2
    rw [routeNodeCompare_nonCA a c ha hc]
    cases hda : a.isDynamic <;> cases hdb : b.isDynamic <;> cases hdc : c.isDynamic <;>
      simp only [hda, hdb, hdc, Bool.not_true, Bool.not_false, Bool.true_and,
        Bool.false_and, Bool.and_true, Bool.and_false, if_true, if_false] at h1 h2 ⊢ <;>
      first
        | omega
        | exact charListCompare_trans_nonpos h1 h2
  · intro a b ha hb
    simp only [catchAllish] at ha hb
    constructor <;> simp [routeNodeCompare, ha, hb]

/-- Witness for `sibling_order_amended`: a static segment against a
catch-all segment. -/
theorem sibling_order_witness :
    catchAllish (bareNode "about") = false ∧
    catchAllish (bareNode "[...rest]") = true ∧
    routeNodeCompare (bareNode "[...rest]") (bareNode "about") = 1 ∧
    routeNodeCompare (bareNode "about") (bareNode "[...rest]") = -1 :=
  ⟨by decide, by decide,
    sibling_order_amended.1 (bareNode "[...rest]") (bareNode "about")
      (by decide) (by decide)⟩
-- ==== observation lemmas (tested previously) ====
theorem hasNamePrefix_self_append (pre s : String) :
    hasNamePrefix pre (pre ++ s) = true := by
  simp [hasNamePrefix, String.toList, String.data_append, List.isPrefixOf_iff_prefix]

theorem not_page_prefix_layout (s : String) :
    hasNamePrefix "Page" ("Layout" ++ s) = false := by
  simp [hasNamePrefix, String.toList, String.data_append, List.isPrefixOf]

theorem not_page_prefix_loading (s : String) :
    hasNamePrefix "Page" ("Loading" ++ s) = false := by
  simp [hasNamePrefix, String.toList, String.data_append, List.isPrefixOf]

theorem not_page_prefix_error (s : String) :
    hasNamePrefix "Page" ("ErrorBoundary" ++ s) = false := by
  simp [hasNamePrefix, String.toList, String.data_append, List.isPrefixOf]

theorem not_page_prefix_notfound (s : String) :
    hasNamePrefix "Page" ("NotFound" ++ s) = false := by
  simp [hasNamePrefix, String.toList, String.data_append, List.isPrefixOf]

theorem not_layout_prefix_page (s : String) :
    hasNamePrefix "Layout" ("Page" ++ s) = false := by
  simp [hasNamePrefix, String.toList, String.data_append, List.isPrefixOf]

theorem not_layout_prefix_loading (s : String) :
    hasNamePrefix "Layout" ("Loading" ++ s) = false := by
  simp [hasNamePrefix, String.toList, String.data_append, List.isPrefixOf]

theorem not_layout_prefix_error (s : String) :
    hasNamePrefix "Layout" ("ErrorBoundary" ++ s) = false := by
  simp [hasNamePrefix, String.toList, String.data_append, List.isPrefixOf]

theorem not_layout_prefix_notfound (s : String) :
    hasNamePrefix "Layout" ("NotFound" ++ s) = false := by
  simp [hasNamePrefix, String.toList, String.data_append, List.isPrefixOf]

theorem stmtImportName?_component (lz : Bool) (name path : String) :
    stmtImportName? (componentImportStmt lz name path) = some name := by
  cases lz <;> rfl

theorem stmtImportSource?_component (lz : Bool) (name path : String) :
    stmtImportSource? (componentImportStmt lz name path) = some ("/" ++ path) := by
  cases lz <;> rfl

theorem pageImportNames_append (a b : List BabelStmt) :
    pageImportNames (a ++ b) = pageImportNames a ++ pageImportNames b := by
  simp [pageImportNames]

theorem layoutImportSources_append (a b : List BabelStmt) :
    layoutImportSources (a ++ b) = layoutImportSources a ++ layoutImportSources b := by
  simp [layoutImportSources]

theorem exportedNames_append (a b : List BabelStmt) :
    exportedNames (a ++ b) = exportedNames a ++ exportedNames b := by
  simp [exportedNames]

theorem pageImportNames_component (lz : Bool) (name path : String) :
    pageImportNames [componentImportStmt lz name path] =
      if hasNamePrefix "Page" name then [name] else [] := by
  simp [pageImportNames, stmtImportName?_component]

theorem layoutImportSources_component (lz : Bool) (name path : String) :
    layoutImportSources [componentImportStmt lz name path] =
      if hasNamePrefix "Layout" name then ["/" ++ path] else [] := by
  simp [layoutImportSources, stmtImportName?_component, stmtImportSource?_component]

theorem exportedNames_component (lz : Bool) (name path : String) :
    exportedNames [componentImportStmt lz name path] = [] := by
  cases lz <;> rfl

-- ==== per-step packs: pageIndex / componentMap / pageImportNames / exportedNames ====

theorem layoutImportStep_pack (rootDir : String) (lz : Bool)
    (st : CollectState) (lp : String) :
    (layoutImportStep rootDir lz st lp).pageIndex = st.pageIndex ∧
    (layoutImportStep rootDir lz st lp).componentMap = st.componentMap ∧
    pageImportNames (layoutImportStep rootDir lz st lp).statements =
      pageImportNames st.statements ∧
    exportedNames (layoutImportStep rootDir lz st lp).statements =
      exportedNames st.statements := by
  by_cases h : lp ∈ st.seenLayouts
  · simp [layoutImportStep, h]
  · simp [layoutImportStep, h, pageImportNames_append, pageImportNames_component,
      not_page_prefix_layout, exportedNames_append, exportedNames_component]

theorem collectLayoutImports_pack (rootDir : String) (lz : Bool)
    (lps : List String) (st : CollectState) :
    (collectLayoutImports rootDir lz st lps).pageIndex = st.pageIndex ∧
    (collectLayoutImports rootDir lz st lps).componentMap = st.componentMap ∧
    pageImportNames (collectLayoutImports rootDir lz st lps).statements =
      pageImportNames st.statements ∧
    exportedNames (collectLayoutImports rootDir lz st lps).statements =
      exportedNames st.statements := by
  induction lps generalizing st with
  | nil => exact ⟨rfl, rfl, rfl, rfl⟩
  | cons lp rest ih =>
      have hs := layoutImportStep_pack rootDir lz st lp
      have ht := ih (layoutImportStep rootDir lz st lp)
      simp only [collectLayoutImports, List.foldl_cons] at ht ⊢
      exact ⟨ht.1.trans hs.1, ht.2.1.trans hs.2.1,
        ht.2.2.1.trans hs.2.2.1, ht.2.2.2.trans hs.2.2.2⟩

theorem collectLoadingImport_pack (rootDir : String) (lz : Bool)
    (st : CollectState) (lp? : Option String) :
    (collectLoadingImport rootDir lz st lp?).pageIndex = st.pageIndex ∧
    (collectLoadingImport rootDir lz st lp?).componentMap = st.componentMap ∧
    pageImportNames (collectLoadingImport rootDir lz st lp?).statements =
      pageImportNames st.statements ∧
    exportedNames (collectLoadingImport rootDir lz st lp?).statements =
      exportedNames st.statements := by
  cases lp? with
  | none => exact ⟨rfl, rfl, rfl, rfl⟩
  | some lp =>
      by_cases h : lp ∈ st.seenLoading
      · simp [collectLoadingImport, h]
      · simp [collectLoadingImport, h, pageImportNames_append, pageImportNames_component,
          not_page_prefix_loading, exportedNames_append, exportedNames_component]

theorem collectErrorImport_pack (rootDir : String) (lz : Bool)
    (st : CollectState) (ep? : Option String) :
    (collectErrorImport rootDir lz st ep?).pageIndex = st.pageIndex ∧
    (collectErrorImport rootDir lz st ep?).componentMap = st.componentMap ∧
    pageImportNames (collectErrorImport rootDir lz st ep?).statements =
      pageImportNames st.statements ∧
    exportedNames (collectErrorImport rootDir lz st ep?).statements =
      exportedNames st.statements := by
  cases ep? with
  | none => exact ⟨rfl, rfl, rfl, rfl⟩
  | some ep =>
      by_cases h : ep ∈ st.seenError
      · simp [collectErrorImport, h]
      · simp [collectErrorImport, h, pageImportNames_append, pageImportNames_component,
          not_page_prefix_error, exportedNames_append, exportedNames_component]

theorem collectNotFoundImport_pack (rootDir : String) (lz : Bool)
    (st : CollectState) (nfp? : Option String) :
    (collectNotFoundImport rootDir lz st nfp?).pageIndex = st.pageIndex ∧
    (collectNotFoundImport rootDir lz st nfp?).componentMap = st.componentMap ∧
    pageImportNames (collectNotFoundImport rootDir lz st nfp?).statements =
      pageImportNames st.statements ∧
    exportedNames (collectNotFoundImport rootDir lz st nfp?).statements =
      exportedNames st.statements := by
  cases nfp? with
  | none => exact ⟨rfl, rfl, rfl, rfl⟩
  | some nfp =>
      by_cases h : nfp ∈ st.seenNotFound
      · simp [collectNotFoundImport, h]
      · simp [collectNotFoundImport, h, pageImportNames_append, pageImportNames_component,
          not_page_prefix_notfound, exportedNames_append, exportedNames_component]

theorem collectLayoutNotFoundImports_pack (rootDir : String) (lz : Bool)
    (entries : List (String × String)) (st : CollectState) :
    (collectLayoutNotFoundImports rootDir lz st entries).pageIndex = st.pageIndex ∧
    (collectLayoutNotFoundImports rootDir lz st entries).componentMap = st.componentMap ∧
    pageImportNames (collectLayoutNotFoundImports rootDir lz st entries).statements =
      pageImportNames st.statements ∧
    exportedNames (collectLayoutNotFoundImports rootDir lz st entries).statements =
      exportedNames st.statements := by
  induction entries generalizing st with
  | nil => exact ⟨rfl, rfl, rfl, rfl⟩
  | cons e rest ih =>
      have hs := collectNotFoundImport_pack rootDir lz st (some e.2)
      have ht := ih (collectNotFoundImport rootDir lz st (some e.2))
      simp only [collectLayoutNotFoundImports, List.foldl_cons] at ht ⊢
      exact ⟨ht.1.trans hs.1, ht.2.1.trans hs.2.1,
        ht.2.2.1.trans hs.2.2.1, ht.2.2.2.trans hs.2.2.2⟩

theorem collectPageImport_pack (rootDir : String) (lz : Bool)
    (st : CollectState) (route : ParsedRoute) :
    (collectPageImport rootDir lz st route).pageIndex = st.pageIndex + 1 ∧
    (collectPageImport rootDir lz st route).componentMap =
      mapSet st.componentMap route.pagePath
        ("Page" ++ generateImportName "" route.pattern st.pageIndex) ∧
    pageImportNames (collectPageImport rootDir lz st route).statements =
      pageImportNames st.statements ++
        ["Page" ++ generateImportName "" route.pattern st.pageIndex] ∧
    exportedNames (collectPageImport rootDir lz st route).statements =
      exportedNames st.statements := by
  refine ⟨rfl, rfl, ?_, ?_⟩
  · simp [collectPageImport, pageImportNames_append, pageImportNames_component,
      hasNamePrefix_self_append]
  · simp [collectPageImport, exportedNames_append, exportedNames_component]

theorem collectRouteImports_pack (rootDir : String) (lz : Bool)
    (st : CollectState) (route : ParsedRoute) :
    (collectRouteImports rootDir lz st route).pageIndex = st.pageIndex + 1 ∧
    (collectRouteImports rootDir lz st route).componentMap =
      mapSet st.componentMap route.pagePath
        ("Page" ++ generateImportName "" route.pattern st.pageIndex) ∧
    pageImportNames (collectRouteImports rootDir lz st route).statements =
      pageImportNames st.statements ++
        ["Page" ++ generateImportName "" route.pattern st.pageIndex] ∧
    exportedNames (collectRouteImports rootDir lz st route).statements =
      exportedNames st.statements := by
  unfold collectRouteImports
  have h1 := collectPageImport_pack rootDir lz st route
  have h2 := collectLayoutImports_pack rootDir lz route.layouts
    (collectPageImport rootDir lz st route)
  set st2 := collectLayoutImports rootDir lz (collectPageImport rootDir lz st route)
    route.layouts with hst2
  have h3 := collectLoadingImport_pack rootDir lz st2 route.loadingPath
  set st3 := collectLoadingImport rootDir lz st2 route.loadingPath with hst3
  have h4 := collectErrorImport_pack rootDir lz st3 route.errorPath
  set st4 := collectErrorImport rootDir lz st3 route.errorPath with hst4
  have h5 := collectNotFoundImport_pack rootDir lz st4 route.notFoundPath
  set st5 := collectNotFoundImport rootDir lz st4 route.notFoundPath with hst5
  cases hm : route.layoutNotFoundMap with
  | none =>
      refine ⟨?_, ?_, ?_, ?_⟩
      · rw [h5.1, h4.1, h3.1, h2.1, h1.1]
      · rw [h5.2.1, h4.2.1, h3.2.1, h2.2.1, h1.2.1]
      · rw [h5.2.2.1, h4.2.2.1, h3.2.2.1, h2.2.2.1, h1.2.2.1]
      · rw [h5.2.2.2, h4.2.2.2, h3.2.2.2, h2.2.2.2, h1.2.2.2]
  | some entries =>
      have h6 := collectLayoutNotFoundImports_pack rootDir lz entries st5
      refine ⟨?_, ?_, ?_, ?_⟩
      · rw [h6.1, h5.1, h4.1, h3.1, h2.1, h1.1]
      · rw [h6.2.1, h5.2.1, h4.2.1, h3.2.1, h2.2.1, h1.2.1]
      · rw [h6.2.2.1, h5.2.2.1, h4.2.2.1, h3.2.2.1, h2.2.2.1, h1.2.2.1]
      · rw [h6.2.2.2, h5.2.2.2, h4.2.2.2, h3.2.2.2, h2.2.2.2, h1.2.2.2]


theorem collectRootNotFoundImport_pack (rootDir : String) (lz : Bool)
    (st : CollectState) (rnf? : Option String) :
    (collectRootNotFoundImport rootDir lz st rnf?).pageIndex = st.pageIndex ∧
    (collectRootNotFoundImport rootDir lz st rnf?).componentMap = st.componentMap ∧
    pageImportNames (collectRootNotFoundImport rootDir lz st rnf?).statements =
      pageImportNames st.statements ∧
    exportedNames (collectRootNotFoundImport rootDir lz st rnf?).statements =
      exportedNames st.statements := by
  cases rnf? with
  | none => exact ⟨rfl, rfl, rfl, rfl⟩
  | some rnf =>
      by_cases h : rnf ∈ st.seenNotFound
      · simp [collectRootNotFoundImport, h]
      · simp [collectRootNotFoundImport, h, pageImportNames_append,
          pageImportNames_component, not_page_prefix_notfound,
          exportedNames_append, exportedNames_component]

theorem string_append_left_cancel {p a b : String} (h : p ++ a = p ++ b) : a = b := by
  have hd : p.data ++ a.data = p.data ++ b.data := by
    rw [← String.data_append, ← String.data_append, h]
  have hab := List.append_cancel_left hd
  cases a; cases b
  exact congrArg String.mk hab

theorem pageNames_routes_fold (rootDir : String) (lz : Bool)
    (rs : List ParsedRoute) (st : CollectState) :
    pageImportNames ((rs.foldl (collectRouteImports rootDir lz) st)).statements =
      pageImportNames st.statements ++ pageNamesSpecFrom st.pageIndex rs := by
  induction rs generalizing st with
  | nil => simp [pageNamesSpecFrom]
  | cons r rest ih =>
      have hp := collectRouteImports_pack rootDir lz st r
      simp only [List.foldl_cons]
      rw [ih, hp.2.2.1, hp.1, pageNamesSpecFrom, List.append_assoc]
      rfl

theorem pageImportNames_init (lz : Bool) :
    pageImportNames [reactRouterDomImport, reactImport lz] = [] := by
  cases lz <;> rfl

theorem pageImportNames_collectImports (routes : List ParsedRoute)
    (rootDir : String) (lz : Bool) (rnf : Option String) :
    pageImportNames (collectImports routes rootDir lz rnf).statements =
      pageNamesSpec routes := by
  simp only [collectImports]
  rw [(collectRootNotFoundImport_pack rootDir lz _ rnf).2.2.1,
    pageNames_routes_fold, pageImportNames_init]
  rfl

theorem exportedNames_routes_fold (rootDir : String) (lz : Bool)
    (rs : List ParsedRoute) (st : CollectState) :
    exportedNames ((rs.foldl (collectRouteImports rootDir lz) st)).statements =
      exportedNames st.statements := by
  induction rs generalizing st with
  | nil => rfl
  | cons r rest ih =>
      have hp := collectRouteImports_pack rootDir lz st r
      simp only [List.foldl_cons]
      rw [ih, hp.2.2.2]

theorem exportedNames_init (lz : Bool) :
    exportedNames [reactRouterDomImport, reactImport lz] = [] := by
  cases lz <;> rfl

theorem exportedNames_collectImports (routes : List ParsedRoute)
    (rootDir : String) (lz : Bool) (rnf : Option String) :
    exportedNames (collectImports routes rootDir lz rnf).statements = [] := by
  simp only [collectImports]
  rw [(collectRootNotFoundImport_pack rootDir lz _ rnf).2.2.2,
    exportedNames_routes_fold, exportedNames_init]

/-- C3 amended: the module generated for the empty route list exports the
default entry component, `AppRouter` and `router`, but not `routes`; for
every non-empty route list the module additionally exports `routes`, so
the two export surfaces agree except for the `routes` export. -/
theorem export_surface_amended :
    (∀ options, exportedNames (generateRoutesAST [] options) =
      ["AppRouter", "router", "default"]) ∧
    (∀ (routes : List ParsedRoute) options, routes ≠ [] →
      exportedNames (generateRoutesAST routes options) =
        ["AppRouter", "router", "routes", "default"]) := by
  constructor
  · intro options; rfl
  · intro routes options h
    have he : routes.isEmpty = false := by
      cases routes with
      | nil => exact absurd rfl h
      | cons a l => rfl
    simp only [generateRoutesAST, he, Bool.false_eq_true, if_false]
    rw [exportedNames_append, exportedNames_collectImports]
    rfl

/-- Witness for `export_surface_amended` at a one-route list. -/
theorem export_surface_witness :
    ([collidingRouteA] ≠ ([] : List ParsedRoute)) ∧
    exportedNames (generateRoutesAST [collidingRouteA]
        { rootDir := "src", lazy_ := true, rootNotFound := none }) =
      ["AppRouter", "router", "routes", "default"] :=
  ⟨by decide,
    export_surface_amended.2 [collidingRouteA]
      { rootDir := "src", lazy_ := true, rootNotFound := none } (by decide)⟩

theorem string_empty_append (s : String) : "" ++ s = s := rfl

theorem pageNamesSpecFrom_nonempty (routes : List ParsedRoute) (n : Nat)
    (h2 : ∀ r ∈ routes, pathToIdentifier r.pattern ≠ "") :
    pageNamesSpecFrom n routes =
      routes.map fun r => "Page" ++ pathToIdentifier r.pattern := by
  induction routes generalizing n with
  | nil => rfl
  | cons r rest ih =>
      have hr : pathToIdentifier r.pattern ≠ "" := h2 r (by simp)
      have hif : (pathToIdentifier r.pattern == "") = false := by
        simp [hr]
      simp only [pageNamesSpecFrom, generateImportName, hif, if_false, List.map_cons,
        Bool.false_eq_true, string_empty_append]
      rw [ih _ (fun r' hr' => h2 r' (by simp [hr']))]

/-- C6 amended: the collector's page-import identifiers are, in route
order, `Page` followed by the route's sanitized pattern — falling back to
the per-route counter only when the sanitization is empty — and they are
pairwise distinct whenever the routes' patterns sanitize to pairwise
distinct non-empty strings.  (The counterexample shows distinctness fails
without that proviso.) -/
theorem page_import_identifiers (routes : List ParsedRoute)
    (rootDir : String) (lz : Bool) (rnf : Option String) :
    pageImportNames (collectImports routes rootDir lz rnf).statements =
      pageNamesSpec routes ∧
    ((routes.map fun r => pathToIdentifier r.pattern).Nodup →
      (∀ r ∈ routes, pathToIdentifier r.pattern ≠ "") →
      (pageImportNames (collectImports routes rootDir lz rnf).statements).Nodup) := by
  refine ⟨pageImportNames_collectImports routes rootDir lz rnf, fun h1 h2 => ?_⟩
  rw [pageImportNames_collectImports, pageNamesSpec,
    pageNamesSpecFrom_nonempty routes 0 h2]
  have hmm : (routes.map fun r => "Page" ++ pathToIdentifier r.pattern) =
      (routes.map fun r => pathToIdentifier r.pattern).map (fun s => "Page" ++ s) := by
    rw [List.map_map]
    rfl
  rw [hmm]
  exact h1.map (fun a b hab => string_append_left_cancel hab)

/-- Witness for `page_import_identifiers` at two routes whose patterns
sanitize to distinct non-empty identifiers. -/
theorem page_import_identifiers_witness :
    (([collidingRouteA, sharedLayoutRouteA].map fun r =>
        pathToIdentifier r.pattern)).Nodup ∧
    (pageImportNames (collectImports [collidingRouteA, sharedLayoutRouteA]
        "src" true none).statements).Nodup :=
  ⟨by decide,
    (page_import_identifiers [collidingRouteA, sharedLayoutRouteA] "src" true none).2
      (by decide) (by decide)⟩

-- appended to S.lean for testing
theorem mapHas_mkLayoutMapFrom (seen : List String) (n : Nat) (x : String) :
    mapHas (mkLayoutMapFrom n seen) x = seen.contains x := by
  induction seen generalizing n with
  | nil => rfl
  | cons f rest ih =>
      simp only [mkLayoutMapFrom, mapHas, List.any_cons, List.contains_cons]
      rw [← mapHas, ih (n + 1)]
      cases hfx : f == x with
      | true =>
          have : f = x := eq_of_beq hfx
          subst this
          simp [List.contains]
      | false =>
          have hne : ¬(x = f) := fun hxf => by
            subst hxf
            simp at hfx
          simp only [Bool.false_or]
          have : (x == f) = false := beq_eq_false_iff_ne.mpr hne
          rw [this]
          simp [List.contains]

theorem mkLayoutMapFrom_snoc (a : List String) (x : String) (n : Nat) :
    mkLayoutMapFrom n (a ++ [x]) =
      mkLayoutMapFrom n a ++ [(x, "Layout" ++ Nat.repr (n + a.length))] := by
  induction a generalizing n with
  | nil => simp [mkLayoutMapFrom]
  | cons f rest ih =>
      show (f, "Layout" ++ Nat.repr n) :: mkLayoutMapFrom (n + 1) (rest ++ [x]) =
        (f, "Layout" ++ Nat.repr n) :: mkLayoutMapFrom (n + 1) rest ++
          [(x, "Layout" ++ Nat.repr (n + (f :: rest).length))]
      rw [ih (n + 1)]
      have harith : n + 1 + rest.length = n + (f :: rest).length := by
        simp only [List.length_cons]
        omega
      rw [harith]
      rfl

theorem mapSet_append_of_not_has {m : List (String × String)} {k : String}
    (h : mapHas m k = false) (v : String) : mapSet m k v = m ++ [(k, v)] := by
  simp [mapSet, h]

theorem layoutImportStep_inv (rootDir : String) (lz : Bool)
    (st : CollectState) (lp : String) (h : layoutInv rootDir st) :
    layoutInv rootDir (layoutImportStep rootDir lz st lp) ∧
    (layoutImportStep rootDir lz st lp).seenLayouts = seenInsert st.seenLayouts lp := by
  obtain ⟨h1, h2, h3⟩ := h
  by_cases hm : lp ∈ st.seenLayouts
  · have hstep : layoutImportStep rootDir lz st lp = st := by
      simp [layoutImportStep, hm]
    rw [hstep]
    refine ⟨⟨h1, h2, h3⟩, ?_⟩
    simp [seenInsert, hm]
  · have hc : st.seenLayouts.contains lp = false := by simpa using hm
    have hstep : layoutImportStep rootDir lz st lp =
        { st with
          seenLayouts := st.seenLayouts ++ [lp],
          layoutIndex := st.layoutIndex + 1,
          statements := st.statements ++
            [componentImportStmt lz ("Layout" ++ Nat.repr st.layoutIndex)
              (normalizeImportPath lp rootDir)],
          layoutMap := mapSet st.layoutMap lp ("Layout" ++ Nat.repr st.layoutIndex) } := by
      simp [layoutImportStep, hm]
    rw [hstep]
    refine ⟨⟨?_, ?_, ?_⟩, ?_⟩
    · simp [h1]
    · show mapSet st.layoutMap lp ("Layout" ++ Nat.repr st.layoutIndex) =
        mkLayoutMap (st.seenLayouts ++ [lp])
      rw [h2, mapSet_append_of_not_has (by rw [mkLayoutMap, mapHas_mkLayoutMapFrom]; exact hc)]
      rw [h1, mkLayoutMap, mkLayoutMap, mkLayoutMapFrom_snoc]
      simp
    · show layoutImportSources (st.statements ++
          [componentImportStmt lz ("Layout" ++ Nat.repr st.layoutIndex)
            (normalizeImportPath lp rootDir)]) =
        (st.seenLayouts ++ [lp]).map fun f => "/" ++ normalizeImportPath f rootDir
      rw [layoutImportSources_append, h3, layoutImportSources_component,
        if_pos (hasNamePrefix_self_append "Layout" (Nat.repr st.layoutIndex))]
      simp
    · simp [seenInsert, hm]

theorem collectLayoutImports_inv (rootDir : String) (lz : Bool)
    (lps : List String) (st : CollectState) (h : layoutInv rootDir st) :
    layoutInv rootDir (collectLayoutImports rootDir lz st lps) ∧
    (collectLayoutImports rootDir lz st lps).seenLayouts =
      lps.foldl seenInsert st.seenLayouts := by
  induction lps generalizing st with
  | nil => exact ⟨h, rfl⟩
  | cons lp rest ih =>
      have hs := layoutImportStep_inv rootDir lz st lp h
      have ht := ih (layoutImportStep rootDir lz st lp) hs.1
      simp only [collectLayoutImports, List.foldl_cons] at ht ⊢
      exact ⟨ht.1, by rw [ht.2, hs.2]⟩

theorem collectPageImport_inv (rootDir : String) (lz : Bool)
    (st : CollectState) (route : ParsedRoute) (h : layoutInv rootDir st) :
    layoutInv rootDir (collectPageImport rootDir lz st route) ∧
    (collectPageImport rootDir lz st route).seenLayouts = st.seenLayouts := by
  obtain ⟨h1, h2, h3⟩ := h
  refine ⟨⟨h1, h2, ?_⟩, rfl⟩
  show layoutImportSources (st.statements ++
      [componentImportStmt lz ("Page" ++ generateImportName "" route.pattern st.pageIndex)
        (normalizeImportPath route.pagePath rootDir)]) =
    List.map (fun f => "/" ++ normalizeImportPath f rootDir) st.seenLayouts
  rw [layoutImportSources_append, h3, layoutImportSources_component,
    if_neg (by rw [not_layout_prefix_page]; exact Bool.false_ne_true)]
  simp

theorem collectLoadingImport_inv (rootDir : String) (lz : Bool)
    (st : CollectState) (lp? : Option String) (h : layoutInv rootDir st) :
    layoutInv rootDir (collectLoadingImport rootDir lz st lp?) ∧
    (collectLoadingImport rootDir lz st lp?).seenLayouts = st.seenLayouts := by
  obtain ⟨h1, h2, h3⟩ := h
  cases lp? with
  | none => exact ⟨⟨h1, h2, h3⟩, rfl⟩
  | some lp =>
      by_cases hm : lp ∈ st.seenLoading
      · have hstep : collectLoadingImport rootDir lz st (some lp) = st := by
          simp [collectLoadingImport, hm]
        rw [hstep]
        exact ⟨⟨h1, h2, h3⟩, rfl⟩
      · have hstep : collectLoadingImport rootDir lz st (some lp) =
            { st with
              seenLoading := st.seenLoading ++ [lp],
              loadingIndex := st.loadingIndex + 1,
              statements := st.statements ++
                [componentImportStmt lz ("Loading" ++ Nat.repr st.loadingIndex)
                  (normalizeImportPath lp rootDir)],
              loadingMap := mapSet st.loadingMap lp
                ("Loading" ++ Nat.repr st.loadingIndex) } := by
          simp [collectLoadingImport, hm]
        rw [hstep]
        refine ⟨⟨h1, h2, ?_⟩, rfl⟩
        show layoutImportSources (st.statements ++ _) = _
        rw [layoutImportSources_append, h3, layoutImportSources_component,
          if_neg (by rw [not_layout_prefix_loading]; exact Bool.false_ne_true)]
        simp

theorem collectErrorImport_inv (rootDir : String) (lz : Bool)
    (st : CollectState) (ep? : Option String) (h : layoutInv rootDir st) :
    layoutInv rootDir (collectErrorImport rootDir lz st ep?) ∧
    (collectErrorImport rootDir lz st ep?).seenLayouts = st.seenLayouts := by
  obtain ⟨h1, h2, h3⟩ := h
  cases ep? with
  | none => exact ⟨⟨h1, h2, h3⟩, rfl⟩
  | some ep =>
      by_cases hm : ep ∈ st.seenError
      · have hstep : collectErrorImport rootDir lz st (some ep) = st := by
          simp [collectErrorImport, hm]
        rw [hstep]
        exact ⟨⟨h1, h2, h3⟩, rfl⟩
      · have hstep : collectErrorImport rootDir lz st (some ep) =
            { st with
              seenError := st.seenError ++ [ep],
              errorIndex := st.errorIndex + 1,
              statements := st.statements ++
                [componentImportStmt lz ("ErrorBoundary" ++ Nat.repr st.errorIndex)
                  (normalizeImportPath ep rootDir)],
              errorMap := mapSet st.errorMap ep
                ("ErrorBoundary" ++ Nat.repr st.errorIndex) } := by
          simp [collectErrorImport, hm]
        rw [hstep]
        refine ⟨⟨h1, h2, ?_⟩, rfl⟩
        show layoutImportSources (st.statements ++ _) = _
        rw [layoutImportSources_append, h3, layoutImportSources_component,
          if_neg (by rw [not_layout_prefix_error]; exact Bool.false_ne_true)]
        simp

theorem collectNotFoundImport_inv (rootDir : String) (lz : Bool)
    (st : CollectState) (nfp? : Option String) (h : layoutInv rootDir st) :
    layoutInv rootDir (collectNotFoundImport rootDir lz st nfp?) ∧
    (collectNotFoundImport rootDir lz st nfp?).seenLayouts = st.seenLayouts := by
  obtain ⟨h1, h2, h3⟩ := h
  cases nfp? with
  | none => exact ⟨⟨h1, h2, h3⟩, rfl⟩
  | some nfp =>
      by_cases hm : nfp ∈ st.seenNotFound
      · have hstep : collectNotFoundImport rootDir lz st (some nfp) = st := by
          simp [collectNotFoundImport, hm]
        rw [hstep]
        exact ⟨⟨h1, h2, h3⟩, rfl⟩
      · have hstep : collectNotFoundImport rootDir lz st (some nfp) =
            { st with
              seenNotFound := st.seenNotFound ++ [nfp],
              notFoundIndex := st.notFoundIndex + 1,
              statements := st.statements ++
                [componentImportStmt lz ("NotFound" ++ Nat.repr st.notFoundIndex)
                  (normalizeImportPath nfp rootDir)],
              notFoundMap := mapSet st.notFoundMap nfp
                ("NotFound" ++ Nat.repr st.notFoundIndex) } := by
          simp [collectNotFoundImport, hm]
        rw [hstep]
        refine ⟨⟨h1, h2, ?_⟩, rfl⟩
        show layoutImportSources (st.statements ++ _) = _
        rw [layoutImportSources_append, h3, layoutImportSources_component,
          if_neg (by rw [not_layout_prefix_notfound]; exact Bool.false_ne_true)]
        simp

theorem collectLayoutNotFoundImports_inv (rootDir : String) (lz : Bool)
    (entries : List (String × String)) (st : CollectState) (h : layoutInv rootDir st) :
    layoutInv rootDir (collectLayoutNotFoundImports rootDir lz st entries) ∧
    (collectLayoutNotFoundImports rootDir lz st entries).seenLayouts = st.seenLayouts := by
  induction entries generalizing st with
  | nil => exact ⟨h, rfl⟩
  | cons e rest ih =>
      have hs := collectNotFoundImport_inv rootDir lz st (some e.2) h
      have ht := ih (collectNotFoundImport rootDir lz st (some e.2)) hs.1
      simp only [collectLayoutNotFoundImports, List.foldl_cons] at ht ⊢
      exact ⟨ht.1, by rw [ht.2, hs.2]⟩

theorem collectRootNotFoundImport_inv (rootDir : String) (lz : Bool)
    (st : CollectState) (rnf? : Option String) (h : layoutInv rootDir st) :
    layoutInv rootDir (collectRootNotFoundImport rootDir lz st rnf?) ∧
    (collectRootNotFoundImport rootDir lz st rnf?).seenLayouts = st.seenLayouts := by
  obtain ⟨h1, h2, h3⟩ := h
  cases rnf? with
  | none => exact ⟨⟨h1, h2, h3⟩, rfl⟩
  | some rnf =>
      by_cases hm : rnf ∈ st.seenNotFound
      · have hstep : collectRootNotFoundImport rootDir lz st (some rnf) = st := by
          simp [collectRootNotFoundImport, hm]
        rw [hstep]
        exact ⟨⟨h1, h2, h3⟩, rfl⟩
      · have hstep : collectRootNotFoundImport rootDir lz st (some rnf) =
            { st with
              notFoundIndex := st.notFoundIndex + 1,
              statements := st.statements ++
                [componentImportStmt lz ("NotFound" ++ Nat.repr st.notFoundIndex)
                  (normalizeImportPath rnf rootDir)],
              notFoundMap := mapSet st.notFoundMap rnf
                ("NotFound" ++ Nat.repr st.notFoundIndex) } := by
          simp [collectRootNotFoundImport, hm]
        rw [hstep]
        refine ⟨⟨h1, h2, ?_⟩, rfl⟩
        show layoutImportSources (st.statements ++ _) = _
        rw [layoutImportSources_append, h3, layoutImportSources_component,
          if_neg (by rw [not_layout_prefix_notfound]; exact Bool.false_ne_true)]
        simp

theorem collectRouteImports_inv (rootDir : String) (lz : Bool)
    (st : CollectState) (route : ParsedRoute) (h : layoutInv rootDir st) :
    layoutInv rootDir (collectRouteImports rootDir lz st route) ∧
    (collectRouteImports rootDir lz st route).seenLayouts =
      route.layouts.foldl seenInsert st.seenLayouts := by
  unfold collectRouteImports
  have i1 := collectPageImport_inv rootDir lz st route h
  have i2 := collectLayoutImports_inv rootDir lz route.layouts _ i1.1
  have i3 := collectLoadingImport_inv rootDir lz _ route.loadingPath i2.1
  have i4 := collectErrorImport_inv rootDir lz _ route.errorPath i3.1
  have i5 := collectNotFoundImport_inv rootDir lz _ route.notFoundPath i4.1
  cases hm : route.layoutNotFoundMap with
  | none =>
      refine ⟨i5.1, ?_⟩
      rw [i5.2, i4.2, i3.2, i2.2, i1.2]
  | some entries =>
      have i6 := collectLayoutNotFoundImports_inv rootDir lz entries _ i5.1
      refine ⟨i6.1, ?_⟩
      rw [i6.2, i5.2, i4.2, i3.2, i2.2, i1.2]

theorem collectImports_inv (routes : List ParsedRoute) (rootDir : String)
    (lz : Bool) (rnf : Option String) :
    layoutInv rootDir (collectImports routes rootDir lz rnf) ∧
    (collectImports routes rootDir lz rnf).seenLayouts =
      dedupFirst (routes.flatMap (·.layouts)) := by
  have hfold : ∀ (rs : List ParsedRoute) (st : CollectState), layoutInv rootDir st →
      layoutInv rootDir (rs.foldl (collectRouteImports rootDir lz) st) ∧
      (rs.foldl (collectRouteImports rootDir lz) st).seenLayouts =
        (rs.flatMap (·.layouts)).foldl seenInsert st.seenLayouts := by
    intro rs
    induction rs with
    | nil => intro st h; exact ⟨h, rfl⟩
    | cons r rest ih =>
        intro st h
        have hs := collectRouteImports_inv rootDir lz st r h
        have ht := ih (collectRouteImports rootDir lz st r) hs.1
        simp only [List.foldl_cons, List.flatMap_cons, List.foldl_append] at ht ⊢
        exact ⟨ht.1, by rw [ht.2, hs.2]⟩
  have hinit : layoutInv rootDir
      { statements := [reactRouterDomImport, reactImport lz],
        componentMap := [], layoutMap := [], loadingMap := [],
        errorMap := [], notFoundMap := [],
        pageIndex := 0, layoutIndex := 0, loadingIndex := 0,
        errorIndex := 0, notFoundIndex := 0,
        seenLayouts := [], seenLoading := [], seenError := [],
        seenNotFound := [] } := by
    refine ⟨rfl, rfl, ?_⟩
    cases lz <;> rfl
  simp only [collectImports]
  have h1 := hfold routes _ hinit
  have h2 := collectRootNotFoundImport_inv rootDir lz _ rnf h1.1
  exact ⟨h2.1, by rw [h2.2, h1.2]; rfl⟩

theorem seenInsert_foldl_mem (l s : List String) (x : String) :
    x ∈ l.foldl seenInsert s ↔ x ∈ s ∨ x ∈ l := by
  induction l generalizing s with
  | nil => simp
  | cons a rest ih =>
      simp only [List.foldl_cons, ih]
      by_cases h : a ∈ s
      · have e1 : seenInsert s a = s := by simp [seenInsert, h]
        rw [e1]
        simp only [List.mem_cons]
        constructor
        · rintro (hs | hr)
          · exact Or.inl hs
          · exact Or.inr (Or.inr hr)
        · rintro (hs | rfl | hr)
          · exact Or.inl hs
          · exact Or.inl h
          · exact Or.inr hr
      · have e2 : seenInsert s a = s ++ [a] := by
          simp [seenInsert, h]
        rw [e2]
        simp only [List.mem_append, List.mem_singleton, List.mem_cons]
        tauto

theorem seenInsert_foldl_nodup (l : List String) (s : List String)
    (hs : s.Nodup) : (l.foldl seenInsert s).Nodup := by
  induction l generalizing s with
  | nil => exact hs
  | cons a rest ih =>
      simp only [List.foldl_cons]
      refine ih (seenInsert s a) ?_
      by_cases h : a ∈ s
      · simpa [seenInsert, h] using hs
      · have hc : s.contains a = false := by simpa using h
        simp only [seenInsert, hc, Bool.false_eq_true, if_false]
        simp [List.nodup_append, hs, h]

theorem dedupFirst_mem (l : List String) (x : String) :
    x ∈ dedupFirst l ↔ x ∈ l := by
  rw [dedupFirst, seenInsert_foldl_mem]
  simp

theorem dedupFirst_nodup (l : List String) : (dedupFirst l).Nodup :=
  seenInsert_foldl_nodup l [] List.nodup_nil

theorem mapGet?_mkLayoutMapFrom (seen : List String) (n : Nat) (f : String)
    (hf : f ∈ seen) :
    mapGet? (mkLayoutMapFrom n seen) f =
      some ("Layout" ++ Nat.repr (n + seen.findIdx (· == f))) := by
  induction seen generalizing n with
  | nil => cases hf
  | cons d rest ih =>
      by_cases hfd : f = d
      · subst hfd
        simp [mkLayoutMapFrom, mapGet?, List.findIdx_cons]
      · have hbd : (d == f) = false := beq_eq_false_iff_ne.mpr (fun h => hfd h.symm)
        have hfb : (f == d) = false := beq_eq_false_iff_ne.mpr hfd
        have hrest : f ∈ rest := by
          rcases List.mem_cons.mp hf with h | h
          · exact absurd h hfd
          · exact h
        simp only [mkLayoutMapFrom, mapGet?, hbd, List.findIdx_cons, hfb,
          cond_false, Bool.false_eq_true, if_false]
        rw [ih (n + 1) hrest]
        have harith : n + 1 + rest.findIdx (· == f) = n + (rest.findIdx (· == f) + 1) := by
          omega
        rw [harith]

/-- C8: layout-import deduplication.  The emitted layout import
statements are exactly one per *distinct* layout file, in first-occurrence
order — so N routes referencing the same layout file produce one import
for it regardless of N — and the layout map binds that file to the
identifier assigned at its first occurrence, which every later reference
reuses. -/
theorem layout_import_dedup (routes : List ParsedRoute) (rootDir : String)
    (lz : Bool) (rnf : Option String) (f : String)
    (h : ∃ r ∈ routes, f ∈ r.layouts) :
    layoutImportSources (collectImports routes rootDir lz rnf).statements =
      (dedupFirst (routes.flatMap (·.layouts))).map
        (fun g => "/" ++ normalizeImportPath g rootDir) ∧
    (dedupFirst (routes.flatMap (·.layouts))).count f = 1 ∧
    mapGet? (collectImports routes rootDir lz rnf).layoutMap f =
      some ("Layout" ++ Nat.repr
        ((dedupFirst (routes.flatMap (·.layouts))).findIdx (· == f))) := by
  obtain ⟨hinv, hseen⟩ := collectImports_inv routes rootDir lz rnf
  obtain ⟨h1, h2, h3⟩ := hinv
  have hfL : f ∈ routes.flatMap (·.layouts) := by
    rw [List.mem_flatMap]
    obtain ⟨r, hr, hf⟩ := h
    exact ⟨r, hr, hf⟩
  have hfD : f ∈ dedupFirst (routes.flatMap (·.layouts)) :=
    (dedupFirst_mem _ f).mpr hfL
  refine ⟨?_, ?_, ?_⟩
  · rw [h3, hseen]
  · exact List.count_eq_one_of_mem (dedupFirst_nodup _) hfD
  · rw [h2, hseen, mkLayoutMap, mapGet?_mkLayoutMapFrom _ 0 f hfD]
    simp

/-- Witness for `layout_import_dedup`: two routes sharing one layout
file. -/
theorem layout_import_dedup_witness :
    (∃ r ∈ [sharedLayoutRouteA, sharedLayoutRouteB],
      "src/app/layout.tsx" ∈ r.layouts) ∧
    layoutImportSources (collectImports [sharedLayoutRouteA, sharedLayoutRouteB]
        "src" true none).statements =
      (dedupFirst ([sharedLayoutRouteA, sharedLayoutRouteB].flatMap (·.layouts))).map
        (fun g => "/" ++ normalizeImportPath g "src") ∧
    (dedupFirst ([sharedLayoutRouteA, sharedLayoutRouteB].flatMap (·.layouts))).count
        "src/app/layout.tsx" = 1 ∧
    mapGet? (collectImports [sharedLayoutRouteA, sharedLayoutRouteB]
        "src" true none).layoutMap "src/app/layout.tsx" =
      some ("Layout" ++ Nat.repr
        ((dedupFirst ([sharedLayoutRouteA, sharedLayoutRouteB].flatMap
          (·.layouts))).findIdx (· == "src/app/layout.tsx"))) :=
  ⟨⟨sharedLayoutRouteA, by decide⟩,
    layout_import_dedup [sharedLayoutRouteA, sharedLayoutRouteB] "src" true none
      "src/app/layout.tsx" ⟨sharedLayoutRouteA, by decide⟩⟩

-- ==== C10 machinery ====

theorem mapGet?_append_self {m : List (String × String)} {k : String}
    (h : mapHas m k = false) (v : String) :
    mapGet? (m ++ [(k, v)]) k = some v := by
  induction m with
  | nil => simp [mapGet?]
  | cons p rest ih =>
      have hp : (p.1 == k) = false := by
        by_contra hc
        have hb : (p.1 == k) = true := by simpa using hc
        simp [mapHas, List.any_cons, hb] at h
      have hrest : mapHas rest k = false := by
        simp only [mapHas, List.any_cons] at h
        have := Bool.or_eq_false_iff.mp h
        simpa [mapHas] using this.2
      simp only [List.cons_append, mapGet?, hp, Bool.false_eq_true, if_false]
      exact ih hrest

theorem mapGet?_append_ne {m : List (String × String)} {k k' : String}
    (hne : k ≠ k') (v : String) :
    mapGet? (m ++ [(k', v)]) k = mapGet? m k := by
  induction m with
  | nil =>
      have : (k' == k) = false := beq_eq_false_iff_ne.mpr (fun hh => hne hh.symm)
      simp [mapGet?, this]
  | cons p rest ih =>
      simp only [List.cons_append, mapGet?]
      by_cases hp : (p.1 == k) = true
      · simp [hp]
      · have hpf : (p.1 == k) = false := by simpa using hp
        simp only [hpf, Bool.false_eq_true, if_false]
        exact ih

theorem mapGet?_overwrite_self (m : List (String × String)) (k v : String) :
    mapGet? (m.map fun p => if p.1 == k then (k, v) else p) k =
      if mapHas m k then some v else none := by
  induction m with
  | nil => simp [mapGet?, mapHas]
  | cons p rest ih =>
      by_cases hp : (p.1 == k) = true
      · simp [mapGet?, hp, mapHas, List.any_cons]
      · have hpf : (p.1 == k) = false := by simpa using hp
        simp only [List.map_cons, hpf, Bool.false_eq_true, if_false, mapGet?, ih,
          mapHas, List.any_cons, Bool.false_or]

theorem mapGet?_overwrite_ne (m : List (String × String)) {k k' : String}
    (hne : k ≠ k') (v : String) :
    mapGet? (m.map fun p => if p.1 == k' then (k', v) else p) k = mapGet? m k := by
  induction m with
  | nil => rfl
  | cons p rest ih =>
      by_cases hp : (p.1 == k') = true
      · have hp1 : p.1 = k' := eq_of_beq hp
        have hk'k : (k' == k) = false := beq_eq_false_iff_ne.mpr (fun hh => hne hh.symm)
        have hpk : (p.1 == k) = false := by rw [hp1]; exact hk'k
        simp only [List.map_cons, hp, if_pos, mapGet?, hk'k, hpk, Bool.false_eq_true,
          if_false]
        exact ih
      · have hpf : (p.1 == k') = false := by simpa using hp
        simp only [List.map_cons, hpf, Bool.false_eq_true, if_false, mapGet?]
        by_cases hpk : (p.1 == k) = true
        · simp [hpk]
        · have : (p.1 == k) = false := by simpa using hpk
          simp only [this, Bool.false_eq_true, if_false]
          exact ih

theorem mapGet?_mapSet_self (m : List (String × String)) (k v : String) :
    mapGet? (mapSet m k v) k = some v := by
  by_cases h : mapHas m k = true
  · simp only [mapSet, h, if_pos, mapGet?_overwrite_self, if_true]
  · have hf : mapHas m k = false := by simpa using h
    simp only [mapSet, hf, Bool.false_eq_true, if_false]
    exact mapGet?_append_self hf v

theorem mapGet?_mapSet_ne (m : List (String × String)) {k k' : String}
    (hne : k ≠ k') (v : String) :
    mapGet? (mapSet m k' v) k = mapGet? m k := by
  by_cases h : mapHas m k' = true
  · simp only [mapSet, h, if_pos]
    exact mapGet?_overwrite_ne m hne v
  · have hf : mapHas m k' = false := by simpa using h
    simp only [mapSet, hf, Bool.false_eq_true, if_false]
    exact mapGet?_append_ne hne v

theorem mapGet?_mapSet_isSome (m : List (String × String)) (k k' v : String)
    (h : (mapGet? m k).isSome = true) :
    (mapGet? (mapSet m k' v) k).isSome = true := by
  by_cases hk : k = k'
  · subst hk
    rw [mapGet?_mapSet_self]
    rfl
  · rw [mapGet?_mapSet_ne m hk v]
    exact h

theorem componentMap_presence_step (rootDir : String) (lz : Bool)
    (st : CollectState) (route : ParsedRoute) (k : String)
    (h : (mapGet? st.componentMap k).isSome = true) :
    (mapGet? (collectRouteImports rootDir lz st route).componentMap k).isSome = true := by
  rw [(collectRouteImports_pack rootDir lz st route).2.1]
  exact mapGet?_mapSet_isSome _ _ _ _ h

theorem componentMap_presence_fold (rootDir : String) (lz : Bool)
    (rs : List ParsedRoute) (st : CollectState) (k : String)
    (h : (mapGet? st.componentMap k).isSome = true) :
    (mapGet? ((rs.foldl (collectRouteImports rootDir lz) st)).componentMap k).isSome
      = true := by
  induction rs generalizing st with
  | nil => exact h
  | cons a rest ih =>
      simp only [List.foldl_cons]
      exact ih _ (componentMap_presence_step rootDir lz st a k h)

theorem componentMap_mem_fold (rootDir : String) (lz : Bool)
    (rs : List ParsedRoute) (st : CollectState) (r : ParsedRoute) (hr : r ∈ rs) :
    (mapGet? ((rs.foldl (collectRouteImports rootDir lz) st)).componentMap
      r.pagePath).isSome = true := by
  induction rs generalizing st with
  | nil => cases hr
  | cons a rest ih =>
      simp only [List.foldl_cons]
      rcases List.mem_cons.mp hr with heq | hmem
      · subst heq
        refine componentMap_presence_fold rootDir lz rest _ _ ?_
        rw [(collectRouteImports_pack rootDir lz st r).2.1, mapGet?_mapSet_self]
        rfl
      · exact ih _ hmem

/-- C10: the unchecked map dereferences of the generator are safe — for
the maps built by `collectImports` over the same route list, the
component-map lookup of every route's page path and the layout-map lookup
of every path in any route's layout chain (its head `layouts[0]`
included) are defined. -/
theorem generation_map_lookups_safe (routes : List ParsedRoute) (rootDir : String)
    (lz : Bool) (rnf : Option String) (r : ParsedRoute) (hr : r ∈ routes) :
    (mapGet? (collectImports routes rootDir lz rnf).componentMap r.pagePath).isSome
      = true ∧
    ∀ p ∈ r.layouts,
      (mapGet? (collectImports routes rootDir lz rnf).layoutMap p).isSome = true := by
  constructor
  · simp only [collectImports]
    rw [(collectRootNotFoundImport_pack rootDir lz _ rnf).2.1]
    exact componentMap_mem_fold rootDir lz routes _ r hr
  · intro p hp
    obtain ⟨⟨h1, h2, h3⟩, hseen⟩ := collectImports_inv routes rootDir lz rnf
    have hpD : p ∈ dedupFirst (routes.flatMap (·.layouts)) := by
      rw [dedupFirst_mem, List.mem_flatMap]
      exact ⟨r, hr, hp⟩
    rw [h2, hseen, mkLayoutMap, mapGet?_mkLayoutMapFrom _ 0 p hpD]
    rfl

/-- Witness for `generation_map_lookups_safe`. -/
theorem generation_map_lookups_safe_witness :
    sharedLayoutRouteA ∈ [sharedLayoutRouteA, sharedLayoutRouteB] ∧
    ((mapGet? (collectImports [sharedLayoutRouteA, sharedLayoutRouteB]
        "src" true none).componentMap sharedLayoutRouteA.pagePath).isSome = true ∧
      ∀ p ∈ sharedLayoutRouteA.layouts,
        (mapGet? (collectImports [sharedLayoutRouteA, sharedLayoutRouteB]
          "src" true none).layoutMap p).isSome = true) :=
  ⟨by decide,
    generation_map_lookups_safe [sharedLayoutRouteA, sharedLayoutRouteB]
      "src" true none sharedLayoutRouteA (by decide)⟩
